import Mathlib

/-! # poultry

A verification development for `poultry.go`, a single-table blog: `initDB` creates the table
`posts`, `handlePost` inserts a post from a submitted form, `handleMain` lists all posts in
descending time order and renders them with the template `main`, and `main` wires the two
handlers into the HTTP server.

The Go code is embedded as pure functions over an explicit store. The libraries the code
calls (the SQL engine behind `database/sql`, the multiplexer and request parsing of
`net/http`, the escaper of `html/template`) are not part of the repository; they are
represented by small executable models, each marked as such in its comment. Every failure a
library call can report is an explicit input (`Env`), so that each error branch of the
handlers is reachable. Requests are served one at a time.

The definitions come first, the theorems follow from `# Theorems` on.
-/

namespace Poultry

/-! ## The store -/

/-- A row of table `posts`. The columns are those of the CREATE TABLE statement in `initDB`,
in declaration order: `ts time DEFAULT now()`, `title string`, `content string`. No column
is declared NOT NULL, so every column may hold NULL (`none`). Times are clock ticks. -/
structure Row where
  ts : Option Nat
  title : Option String
  content : Option String
deriving DecidableEq

/-- The persistent store behind the handle `DB`: the rows of table `posts` in insertion
order, or `none` while the table does not exist. -/
structure Store where
  posts : Option (List Row)
deriving DecidableEq

/-- The rows a store holds (none when the table is absent). -/
def Store.rows (s : Store) : List Row :=
  match s.posts with
  | some rs => rs
  | none => []

/-- Everything outside the program that an operation depends on: the store clock read by
`now()`, and the failures the libraries may report. `none` means the step does not fail for
an external reason (a cancelled request context, which the handlers pass to `BeginTx` and
`QueryContext`, is such a reason). `iterErr = some (n, e)` makes a cursor break with error
`e` after it has yielded `n` rows; `writeErr = some (n, e)` makes the response writer fail
with `e` after `n` characters. -/
structure Env where
  now : Nat
  openErr : Option String
  beginErr : Option String
  execErr : Option String
  commitErr : Option String
  queryErr : Option String
  iterErr : Option (Nat × String)
  writeErr : Option (Nat × String)
deriving DecidableEq

/-- An environment in which nothing fails, with the store clock at `t`. -/
def Env.quiet (t : Nat) : Env :=
  { now := t, openErr := none, beginErr := none, execErr := none, commitErr := none,
    queryErr := none, iterErr := none, writeErr := none }

/-! ## The SQL statements of the program -/

/-- The statement text of `handlePost` (source lines 86-89). -/
def insertSQL : String := "INSERT INTO posts (title, content) VALUES ($1, $2)"

/-- The statement text of `handleMain` (source line 111). -/
def selectSQL : String := "SELECT * FROM posts ORDER BY ts DESC"

/-- The statement text of `initDB` (source lines 156-160), a raw string spanning five lines. -/
def createSQL : String :=
  "CREATE TABLE IF NOT EXISTS posts (\n" ++
  "\t\tts time DEFAULT now(),\n" ++
  "\t\ttitle string,\n" ++
  "\t\tcontent string,\n" ++
  ")"

/-- Modelled from the spec: a value of the SQL engine. -/
inductive Value where
  | null
  | time (t : Nat)
  | str (s : String)
deriving DecidableEq

/-- Modelled from the spec: an expression of a VALUES list, a positional parameter `$i` or
the call `now()`. -/
inductive Expr where
  | param (i : Nat)
  | now
deriving DecidableEq

/-- Modelled from the spec: the three statement shapes the program sends to the store. -/
inductive Stmt where
  | createTableIfNotExists
  | insertInto (cols : List String) (values : List Expr)
  | selectAllOrderByTsDesc
deriving DecidableEq

/-- Modelled from the spec: the SQL engine (package ql behind database/sql) is not part of
the repository source. The parser of the model recognises exactly the three statement texts
of the program, read off the texts by hand: the insert names the columns `title`, `content`
and binds them to `$1`, `$2`; any other text is a syntax error. -/
def parseSQL (q : String) : Option Stmt :=
  if q = createSQL then some Stmt.createTableIfNotExists
  else if q = insertSQL then
    some (Stmt.insertInto ["title", "content"] [Expr.param 1, Expr.param 2])
  else if q = selectSQL then some Stmt.selectAllOrderByTsDesc
  else none

/-- Modelled from the spec: evaluation of a VALUES expression. `$i` is the `i`-th bound
argument (counted from 1; the handlers bind Go strings), `now()` is the store clock. -/
def evalExpr (args : List String) (now : Nat) : Expr → Except String Value
  | Expr.param i =>
    if i = 0 then Except.error "parameter index out of range"
    else
      match args.get? (i - 1) with
      | some s => Except.ok (Value.str s)
      | none => Except.error "missing parameter"
  | Expr.now => Except.ok (Value.time now)

/-- Modelled from the spec: evaluation of a whole VALUES list, left to right. -/
def evalExprs (args : List String) (now : Nat) : List Expr → Except String (List Value)
  | [] => Except.ok []
  | e :: es =>
    match evalExpr args now e with
    | Except.error err => Except.error err
    | Except.ok v =>
      match evalExprs args now es with
      | Except.error err => Except.error err
      | Except.ok vs => Except.ok (v :: vs)

/-- Modelled from the spec: the value a time column takes from an assignment; a missing
assignment (`none`) takes the column default `dflt`. -/
def timeCell (dflt : Option Nat) : Option Value → Except String (Option Nat)
  | none => Except.ok dflt
  | some Value.null => Except.ok none
  | some (Value.time t) => Except.ok (some t)
  | some (Value.str _) => Except.error "type mismatch: string value for time column"

/-- Modelled from the spec: the value a string column takes from an assignment; a missing
assignment is NULL. -/
def strCell : Option Value → Except String (Option String)
  | none => Except.ok none
  | some Value.null => Except.ok none
  | some (Value.str s) => Except.ok (some s)
  | some (Value.time _) => Except.error "type mismatch: time value for string column"

/-- Modelled from the spec: the row an INSERT with column list `cols` and evaluated values
`vals` adds to table `posts`. Each named column takes the value at the same position; a
column that is not named takes its default, which is `now()` for `ts` (the DEFAULT clause of
the CREATE TABLE statement) and NULL for `title` and `content`. -/
def buildRow (cols : List String) (vals : List Value) (now : Nat) : Except String Row :=
  if cols.length ≠ vals.length then Except.error "column and value counts differ"
  else if cols.any (fun c => !(["ts", "title", "content"].contains c)) then
    Except.error "unknown column"
  else
    let asg := cols.zip vals
    match timeCell (some now) (asg.lookup "ts") with
    | Except.error err => Except.error err
    | Except.ok ts =>
      match strCell (asg.lookup "title") with
      | Except.error err => Except.error err
      | Except.ok title =>
        match strCell (asg.lookup "content") with
        | Except.error err => Except.error err
        | Except.ok content => Except.ok { ts := ts, title := title, content := content }

/-- Modelled from the spec: the sort key of ORDER BY ts; NULL sorts below every time. -/
def Row.key (r : Row) : Nat :=
  match r.ts with
  | some t => t + 1
  | none => 0

/-- Modelled from the spec: the result order of `ORDER BY ts DESC`, larger times first; rows
with equal times keep their insertion order (the spec leaves ties to the store). -/
def orderByTsDesc (rows : List Row) : List Row :=
  rows.insertionSort (fun a b => b.key ≤ a.key)

/-- Modelled from the spec: execution of a data-changing statement inside a transaction
whose working state is `tx`. -/
def execStmt (tx : Store) (now : Nat) (args : List String) : Stmt → Except String Store
  | Stmt.createTableIfNotExists =>
    match tx.posts with
    | some _ => Except.ok tx
    | none => Except.ok { posts := some [] }
  | Stmt.insertInto cols values =>
    match tx.posts with
    | none => Except.error "table posts does not exist"
    | some rows =>
      match evalExprs args now values with
      | Except.error err => Except.error err
      | Except.ok vals =>
        match buildRow cols vals now with
        | Except.error err => Except.error err
        | Except.ok row => Except.ok { posts := some (rows ++ [row]) }
  | Stmt.selectAllOrderByTsDesc => Except.ok tx

/-- Modelled from the spec: a transaction (`*sql.Tx`), the working copy of the store that
Commit installs. -/
abbrev Tx := Store

/-- Modelled from the spec: `DB.BeginTx` / `db.Begin`. -/
def Begin (db : Store) (env : Env) : Except String Tx :=
  match env.beginErr with
  | some err => Except.error err
  | none => Except.ok db

/-- Modelled from the spec: `tx.Exec(query, args...)`. -/
def Exec (tx : Tx) (env : Env) (query : String) (args : List String) : Except String Tx :=
  match env.execErr with
  | some err => Except.error err
  | none =>
    match parseSQL query with
    | none => Except.error "syntax error"
    | some stmt => execStmt tx env.now args stmt

/-- Modelled from the spec: `tx.Commit()`; a failed commit installs nothing. -/
def Commit (tx : Tx) (env : Env) : Except String Store :=
  match env.commitErr with
  | some err => Except.error err
  | none => Except.ok tx

/-- Modelled from the spec: a result cursor (`*sql.Rows`), the rows `Next` still yields and
the error `Err` reports once `Next` has returned false. -/
structure Rows where
  items : List Row
  err : Option String
deriving DecidableEq

/-- Modelled from the spec: `DB.QueryContext(ctx, query)`. -/
def QueryContext (db : Store) (env : Env) (query : String) : Except String Rows :=
  match env.queryErr with
  | some err => Except.error err
  | none =>
    match parseSQL query with
    | some Stmt.selectAllOrderByTsDesc =>
      match db.posts with
      | none => Except.error "table posts does not exist"
      | some rows =>
        match env.iterErr with
        | none => Except.ok { items := orderByTsDesc rows, err := none }
        | some (n, err) => Except.ok { items := (orderByTsDesc rows).take n, err := some err }
    | _ => Except.error "not a query"

/-! ## Requests, responses, logs -/

/-- The part of `*http.Request` the program reads: method, `URL.Path`, and the parsed body
form `PostForm` (a key with its values, in submission order). -/
structure Request where
  Method : String
  Path : String
  PostForm : List (String × List String)
deriving DecidableEq

/-- Modelled from the spec: `req.PostFormValue(key)`, the first value of `key` in the body
form, or the empty string when the key is absent or has no value. It never fails. -/
def Request.PostFormValue (req : Request) (key : String) : String :=
  match req.PostForm.lookup key with
  | some (v :: _) => v
  | _ => ""

/-- What a handler did to its `http.ResponseWriter`. -/
inductive RespEvent where
  | redirect (url : String) (code : Nat)
  | write (body : String)
  | notFound
deriving DecidableEq

/-- The constant `http.StatusFound`. -/
def StatusFound : Nat := 302

/-- One `log.Printf(format, args...)` call. -/
structure LogEntry where
  format : String
  args : List String
deriving DecidableEq

/-- The struct `Post` local to `handleMain` (source lines 105-109). -/
structure Post where
  Time : Nat
  Title : String
  Content : String
deriving DecidableEq

/-- A library call made by a handler, with its arguments. -/
inductive Call where
  | beginTx
  | exec (query : String) (args : List String)
  | commit
  | query (query : String)
  | rowsClose
  | executeTemplate (name : String) (data : List Post)
  | redirect (url : String) (code : Nat)
deriving DecidableEq

/-- The outcome of one handler invocation: the store afterwards, the effect on the response
writer, the log lines, and the library calls in order. -/
structure Result where
  db : Store
  resp : List RespEvent
  log : List LogEntry
  calls : List Call
deriving DecidableEq

/-! ## The template -/

/-- The template text before the range action (source lines 18-56); the trim markers of
`define "main" -` and `- range` have removed the white space at both ends. -/
def pageHead : String :=
  "<html>\n" ++
  "\t\t<head>\n" ++
  "\t\t\t<style type=\x27text/css\x27>\n" ++
  "\t\t\tbody\n" ++
  "\t\t\t\x7b\n" ++
  "\t\t\t\twidth:50%;\n" ++
  "\t\t\t\tmargin:8px auto;\n" ++
  "\t\t\t\tdisplay:flex;\n" ++
  "\t\t\t\tflex-direction:column;\n" ++
  "\t\t\t\x7d\n" ++
  "\n" ++
  "\t\t\t#new-post\n" ++
  "\t\t\t\x7b\n" ++
  "\t\t\t\tdisplay:flex;\n" ++
  "\t\t\t\tflex-direction:column;\n" ++
  "\t\t\t\x7d\n" ++
  "\n" ++
  "\t\t\t#new-post input[name=\x27title\x27]\n" ++
  "\t\t\t\x7b\n" ++
  "\t\t\t\twidth:100%;\n" ++
  "\t\t\t\x7d\n" ++
  "\n" ++
  "\t\t\t#new-post textarea[name=\x27content\x27]\n" ++
  "\t\t\t\x7b\n" ++
  "\t\t\t\twidth:100%;\n" ++
  "\t\t\t\theight:30em;\n" ++
  "\t\t\t\x7d\n" ++
  "\t\t\t</style>\n" ++
  "\t\t</head>\n" ++
  "\t\t<body>\n" ++
  "\t\t\t<form id=\x27new-post\x27 method=\x27post\x27 action=\x27/post\x27>\n" ++
  "\t\t\t\t<label>Title: <input type=\x27text\x27 name=\x27title\x27 /></label>\n" ++
  "\t\t\t\t<label>Content: <textarea name=\x27content\x27></textarea></label>\n" ++
  "\t\t\t\t<input type=\x27submit\x27 />\n" ++
  "\t\t\t</form>\n" ++
  "\n" ++
  "\t\t\t<hr />\n" ++
  "\n" ++
  "\t\t\t<div id=\x27posts\x27>"

/-- The text of the range body up to the action `.Title` (source lines 57-59). -/
def blockOpen : String :=
  "\n" ++
  "\t\t\t\t\t<div class=\x27post\x27>\n" ++
  "\t\t\t\t\t\t<div class=\x27post-title\x27>"

/-- The text between the actions `.Title` and `.Content` (source lines 59-60). -/
def blockMid : String :=
  "</div>\n" ++
  "\t\t\t\t\t\t<div class=\x27post-content\x27>"

/-- The text of the range body after the action `.Content` (source lines 60-62). -/
def blockClose : String :=
  "</div>\n" ++
  "\t\t\t\t\t</div>\n" ++
  "\t\t\t\t"

/-- The template text after the range (source lines 63-64), trimmed by `end -` and `- end`. -/
def pageTail : String :=
  "</div>\n" ++
  "\t</html>"

/-- The constant `pages` (source lines 17-65): the template text, cut at its five actions.
The trim marker of `define "main" -` removes the line break and tab before `pageHead`, the
one of `- range` the white space after `pageHead`, the one of `end -` the white space before
`pageTail`, and the one of `- end` the line break after `pageTail`. -/
def pages : String :=
  "\x7b\x7b define \"main\" -\x7d\x7d\n\t" ++ pageHead ++
  "\n\t\t\t\t\x7b\x7b- range . \x7d\x7d" ++ blockOpen ++
  "\x7b\x7b .Title \x7d\x7d" ++ blockMid ++
  "\x7b\x7b .Content \x7d\x7d" ++ blockClose ++
  "\x7b\x7b end -\x7d\x7d\n\t\t\t" ++ pageTail ++
  "\n\x7b\x7b- end \x7d\x7d"

/-- Modelled from the spec: the replacement table of the templating layer for text between
HTML tags (`htmlReplacementTable` of Go html/template, which is not part of the repository
source): NUL, the two quotes, `&`, `+`, `<` and `>` are replaced, every other character is
kept. -/
def htmlReplacementTable (c : Char) : Option String :=
  if c = Char.ofNat 0 then some "\uFFFD"
  else if c = Char.ofNat 34 then some "&#34;"
  else if c = '&' then some "&amp;"
  else if c = Char.ofNat 39 then some "&#39;"
  else if c = '+' then some "&#43;"
  else if c = '<' then some "&lt;"
  else if c = '>' then some "&gt;"
  else none

/-- Modelled from the spec: the characters one input character contributes to the escaped
text. -/
def htmlReplace (c : Char) : List Char :=
  match htmlReplacementTable c with
  | some r => r.data
  | none => [c]

/-- Modelled from the spec: the escaped form of a character sequence, each character
replaced in turn. -/
def escapeChars : List Char → List Char
  | [] => []
  | c :: cs => htmlReplace c ++ escapeChars cs

/-- Modelled from the spec: the escaper the templating layer applies to a Go `string`
printed by an action in HTML text context, as `.Title` and `.Content` are (each sits between
a `div` start tag and its end tag). -/
def htmlEscaper (s : String) : String :=
  String.mk (escapeChars s.data)

/-- One execution of the range body (source lines 58-61) for the post `p`. -/
def postBlock (p : Post) : String :=
  blockOpen ++ htmlEscaper p.Title ++ blockMid ++ htmlEscaper p.Content ++ blockClose

/-- The action `range .` over the posts, in the order of the slice. -/
def execRange : List Post → String
  | [] => ""
  | p :: ps => postBlock p ++ execRange ps

/-- The page the template `main` (source lines 17-65) produces for `posts`. -/
def execMain (posts : List Post) : String :=
  pageHead ++ execRange posts ++ pageTail

/-- Modelled from the spec: `Tmpl.ExecuteTemplate(rw, name, data)`: the template set holds
the single template `main`; the page is written to the response writer, and a writer that
fails after `n` characters leaves the first `n` characters written. Returns what was
written and the error, if any. -/
def ExecuteTemplate (env : Env) (name : String) (data : List Post) :
    List RespEvent × Option String :=
  if name = "main" then
    match env.writeErr with
    | none => ([RespEvent.write (execMain data)], none)
    | some (n, err) =>
      (if n = 0 then [] else [RespEvent.write (String.mk ((execMain data).data.take n))],
        some err)
  else ([], some "html/template: template is undefined")

/-! ## The handlers -/

/-- The function `handlePost` (source lines 79-102). -/
def handlePost (db : Store) (env : Env) (req : Request) : Result :=
  match Begin db env with
  | Except.error err =>
    { db := db, resp := [],
      log := [{ format := "Error: Failed to being transaction: %v", args := [err] }],
      calls := [Call.beginTx] }
  | Except.ok tx =>
    let title := req.PostFormValue "title"
    let content := req.PostFormValue "content"
    match Exec tx env insertSQL [title, content] with
    | Except.error err =>
      { db := db, resp := [],
        log := [{ format := "Error: Failed to insert post: %v", args := [err] }],
        calls := [Call.beginTx, Call.exec insertSQL [title, content]] }
    | Except.ok tx1 =>
      match Commit tx1 env with
      | Except.error err =>
        { db := db, resp := [],
          log := [{ format := "Error: Failed to commit transaction: %v", args := [err] }],
          calls := [Call.beginTx, Call.exec insertSQL [title, content], Call.commit] }
      | Except.ok db1 =>
        { db := db1, resp := [RespEvent.redirect "/" StatusFound], log := [],
          calls := [Call.beginTx, Call.exec insertSQL [title, content], Call.commit,
            Call.redirect "/" StatusFound] }

/-- Modelled from the spec: `rows.Scan(&p.Time, &p.Title, &p.Content)` on a row of the
three columns `ts`, `title`, `content` that `SELECT *` yields in declaration order. The
destinations are filled by position; NULL converts neither to `time.Time` nor to `string`. -/
def Scan (r : Row) : Except String Post :=
  match r.ts with
  | none => Except.error "sql: Scan error on column index 0: unsupported Scan of NULL"
  | some t =>
    match r.title with
    | none => Except.error "sql: Scan error on column index 1: converting NULL to string"
    | some title =>
      match r.content with
      | none => Except.error "sql: Scan error on column index 2: converting NULL to string"
      | some content => Except.ok { Time := t, Title := title, Content := content }

/-- The loop of `handleMain` (source lines 118-128): scan every row the cursor yields and
append it to `posts`; the first failing scan ends the loop with its error. -/
def scanLoop : List Row → List Post → Except String (List Post)
  | [], posts => Except.ok posts
  | r :: rest, posts =>
    match Scan r with
    | Except.error err => Except.error err
    | Except.ok p => scanLoop rest (posts ++ [p])

/-- The function `handleMain` (source lines 104-140). -/
def handleMain (db : Store) (env : Env) (_req : Request) : Result :=
  match QueryContext db env selectSQL with
  | Except.error err =>
    { db := db, resp := [],
      log := [{ format := "Error: Failed to query table %q: %v", args := ["posts", err] }],
      calls := [Call.query selectSQL] }
  | Except.ok rows =>
    match scanLoop rows.items [] with
    | Except.error err =>
      { db := db, resp := [],
        log := [{ format := "Error: Failed to scan row: %v", args := [err] }],
        calls := [Call.query selectSQL, Call.rowsClose] }
    | Except.ok posts =>
      match rows.err with
      | some err =>
        { db := db, resp := [],
          log := [{ format := "Error: Failed to iterate rows: %v", args := [err] }],
          calls := [Call.query selectSQL, Call.rowsClose] }
      | none =>
        match ExecuteTemplate env "main" posts with
        | (written, some err) =>
          { db := db, resp := written,
            log := [{ format := "Error: Failed to execute template %q: %v",
                      args := ["main", err] }],
            calls := [Call.query selectSQL, Call.executeTemplate "main" posts,
              Call.rowsClose] }
        | (written, none) =>
          { db := db, resp := written, log := [],
            calls := [Call.query selectSQL, Call.executeTemplate "main" posts,
              Call.rowsClose] }

/-! ## Start-up: `initDB`, the routes, `main` -/

/-- The outcome of `initDB`: the store afterwards, the log lines, and `exit = some 1` when
the function ended the process through `os.Exit(1)`. -/
structure InitResult where
  db : Store
  log : List LogEntry
  exit : Option Nat
deriving DecidableEq

/-- The function `initDB` (source lines 142-171), run against the store found at `path`. -/
def initDB (store : Store) (env : Env) (path : String) : InitResult :=
  match env.openErr with
  | some err =>
    { db := store,
      log := [{ format := "Error: Failed to open database %q: %v", args := [path, err] }],
      exit := some 1 }
  | none =>
    match Begin store env with
    | Except.error err =>
      { db := store,
        log := [{ format := "Error: Failed to begin transaction: %v", args := [err] }],
        exit := some 1 }
    | Except.ok tx =>
      match Exec tx env createSQL [] with
      | Except.error err =>
        { db := store,
          log := [{ format := "Error: Failed to create table %q: %v", args := ["posts", err] }],
          exit := some 1 }
      | Except.ok tx1 =>
        match Commit tx1 env with
        | Except.error err =>
          { db := store,
            log := [{ format := "Error: Failed to commit transaction: %v", args := [err] }],
            exit := some 1 }
        | Except.ok db1 => { db := db1, log := [], exit := none }

/-- The handler functions `main` registers. -/
inductive Handler where
  | handlePost
  | handleMain
deriving DecidableEq

/-- The two `http.HandleFunc` registrations of `main` (source lines 190-191): a pattern and
its handler. Neither pattern names a method. -/
def routes : List (String × Handler) :=
  [("/post", Handler.handlePost), ("/", Handler.handleMain)]

/-- Modelled from the spec: whether pattern `e` beats the best pattern found so far, which
it does when it is strictly longer. -/
def beats (e : String × Handler) : Option (String × Handler) → Bool
  | none => true
  | some b => decide (b.1.length < e.1.length)

/-- Modelled from the spec: the longest registered pattern that ends in a slash and is a
prefix of `path`. -/
def longestSubtree (rs : List (String × Handler)) (path : String) :
    Option (String × Handler) :=
  rs.foldl
    (fun best e =>
      if e.1.data.getLast? = some '/' ∧ e.1.data.isPrefixOf path.data = true ∧
          beats e best = true then some e
      else best)
    none

/-- Modelled from the spec: pattern matching of the default `http.ServeMux`. A pattern
without a trailing slash matches exactly its own path; a pattern with a trailing slash
matches every path it is a prefix of; an exact match wins, then the longest pattern. The
request method plays no part. (The multiplexer answers a path that is not in canonical form
with a redirect of its own, without calling a registered handler; that step is left out.) -/
def muxMatch (rs : List (String × Handler)) (path : String) : Option Handler :=
  match rs.lookup path with
  | some h => some h
  | none =>
    match longestSubtree rs path with
    | some e => some e.2
    | none => none

/-- One request served by the HTTP server `main` starts: the multiplexer picks the handler
by `URL.Path`; a path no pattern matches gets the 404 reply of the library. -/
def serve (db : Store) (env : Env) (req : Request) : Result :=
  match muxMatch routes req.Path with
  | some Handler.handlePost => handlePost db env req
  | some Handler.handleMain => handleMain db env req
  | none => { db := db, resp := [RespEvent.notFound], log := [], calls := [] }

/-- A call `main` makes on the process level. -/
inductive ProcEvent where
  | dbClose
  | handleFunc (pattern : String) (h : Handler)
  | listenAndServe (addr : String)
deriving DecidableEq

/-- The state of the running process: the store, the log, the process-level calls performed
so far, the calls registered with `defer` and not yet run (latest first), the replies given
to the requests served, and the exit status once `os.Exit` was called. -/
structure Proc where
  db : Store
  log : List LogEntry
  events : List ProcEvent
  deferred : List ProcEvent
  replies : List (List RespEvent)
  exit : Option Nat
deriving DecidableEq

/-- A statement of a Go function body, as far as `main` needs: an ordinary step, a `defer`
of a call, or `os.Exit(code)`. -/
inductive GoStmt where
  | step (f : Proc → Proc)
  | deferCall (e : ProcEvent)
  | osExit (code : Nat)

/-- Execution of a function body. `os.Exit` ends the process at once: the deferred calls are
not run (Go: "The program terminates immediately; deferred functions are not run"). Only
when control reaches the end of the body do the deferred calls run, latest first. A step
that itself exited the process (as `initDB` may) ends the execution the same way. -/
def runBody : List GoStmt → Proc → Proc
  | [], p =>
    match p.exit with
    | some _ => p
    | none => { p with events := p.events ++ p.deferred, deferred := [] }
  | s :: rest, p =>
    match p.exit with
    | some _ => p
    | none =>
      match s with
      | GoStmt.step f => runBody rest (f p)
      | GoStmt.deferCall e => runBody rest { p with deferred := e :: p.deferred }
      | GoStmt.osExit code => { p with exit := some code }

/-- The requests the server handles before it fails, one after the other, each with the
environment it meets. -/
def serveAll : List (Request × Env) → Proc → Proc
  | [], p => p
  | (req, env) :: rest, p =>
    let r := serve p.db env req
    serveAll rest { p with db := r.db, log := p.log ++ r.log, replies := p.replies ++ [r.resp] }

/-- The body of `main` (source lines 187-194) after flag parsing: `addr` and `path` are the
flag values, `traffic` the requests `http.ListenAndServe` serves before it returns the
error `serveErr` (it always returns a non-nil error). -/
def mainBody (env : Env) (addr path : String) (traffic : List (Request × Env))
    (serveErr : String) : List GoStmt :=
  [ GoStmt.step (fun p =>
      let r := initDB p.db env path
      { p with db := r.db, log := p.log ++ r.log, exit := r.exit }),
    GoStmt.deferCall ProcEvent.dbClose,
    GoStmt.step (fun p =>
      { p with events := p.events ++ [ProcEvent.handleFunc "/post" Handler.handlePost] }),
    GoStmt.step (fun p =>
      { p with events := p.events ++ [ProcEvent.handleFunc "/" Handler.handleMain] }),
    GoStmt.step (fun p =>
      serveAll traffic { p with events := p.events ++ [ProcEvent.listenAndServe addr] }),
    GoStmt.step (fun p =>
      { p with log := p.log ++ [{ format := "Error: Server failed: %v\n", args := [serveErr] }] }),
    GoStmt.osExit 1 ]

/-- The function `main` (source lines 173-195), started on the store `store`. -/
def main (store : Store) (env : Env) (addr path : String) (traffic : List (Request × Env))
    (serveErr : String) : Proc :=
  runBody (mainBody env addr path traffic serveErr)
    { db := store, log := [], events := [], deferred := [], replies := [], exit := none }

/-! ## Predicates used in the statements -/
/-- The row a scanned post came from. -/
def Post.toRow (p : Post) : Row :=
  { ts := some p.Time, title := some p.Title, content := some p.Content }

/-- The character references the escaper produces, without the leading ampersand. -/
def entities : List (List Char) :=
  ["amp;".data, "lt;".data, "gt;".data, "#34;".data, "#39;".data, "#43;".data]

/-- Every ampersand of the text starts one of the character references of `entities`. -/
def ampOK : List Char → Bool
  | [] => true
  | c :: rest => (c != '&' || entities.any (fun e => e.isPrefixOf rest)) && ampOK rest

/-- Every `<` of the text is followed, inside the text, by two characters other than `sc`:
no `<` of the text can start the word `<script`, whatever text is appended. -/
def tagSafe : List Char → Bool
  | [] => true
  | c :: rest =>
    (c != '<' ||
      (match rest with
       | a :: b :: _ => !(a == 's' && b == 'c')
       | _ => false)) && tagSafe rest

/-! ## Sample inputs -/

/-- A store whose table `posts` exists and is empty, as `initDB` leaves a fresh store. -/
def emptyStore : Store := { posts := some [] }

/-- A form submission with both fields, the content holding HTML-special characters. -/
def helloRequest : Request :=
  { Method := "POST", Path := "/post",
    PostForm := [("title", ["<b>Hello</b>"]), ("content", ["World & \"more\""])] }

/-- A form submission without the field `content`. -/
def titleOnlyRequest : Request :=
  { Method := "POST", Path := "/post", PostForm := [("title", ["only a title"])] }

/-- A GET request for the path of the submit handler, with no form. -/
def getPostRequest : Request := { Method := "GET", Path := "/post", PostForm := [] }

/-- A GET request for the index page. -/
def indexRequest : Request := { Method := "GET", Path := "/", PostForm := [] }

/-- An environment in which only the commit of a transaction fails. -/
def commitFails : Env :=
  { now := 5, openErr := none, beginErr := none, execErr := none,
    commitErr := some "disk full", queryErr := none, iterErr := none, writeErr := none }

/-- An environment in which only the cursor fails, after it has yielded one row. -/
def cursorBreaks : Env :=
  { now := 5, openErr := none, beginErr := none, execErr := none, commitErr := none,
    queryErr := none, iterErr := some (1, "connection lost"), writeErr := none }

/-- A store with two complete posts, the older one first. -/
def twoPosts : Store :=
  { posts := some [Row.mk (some 1) (some "first") (some "a"),
      Row.mk (some 2) (some "second") (some "b")] }

/-! # Theorems -/

/-! ## The store model -/

/-- The insert text parses to an insert into the columns `title`, `content` of `$1`, `$2`. -/
theorem parseSQL_insert :
    parseSQL insertSQL
      = some (Stmt.insertInto ["title", "content"] [Expr.param 1, Expr.param 2]) := by
  decide

/-- The text of `initDB` parses to the idempotent table creation. -/
theorem parseSQL_create : parseSQL createSQL = some Stmt.createTableIfNotExists := by
  decide

/-- The text of `handleMain` parses to the ordered selection. -/
theorem parseSQL_select : parseSQL selectSQL = some Stmt.selectAllOrderByTsDesc := by
  decide

/-- The row built from two string values for `title` and `content`: the time is the default. -/
theorem buildRow_title_content (t c : String) (now : Nat) :
    buildRow ["title", "content"] [Value.str t, Value.str c] now
      = Except.ok { ts := some now, title := some t, content := some c } := by
  simp [buildRow, timeCell, strCell, List.lookup]

/-- The effect of the insert statement on a transaction. -/
theorem execStmt_insert (tx : Store) (now : Nat) (t c : String) :
    execStmt tx now [t, c] (Stmt.insertInto ["title", "content"] [Expr.param 1, Expr.param 2])
      = match tx.posts with
        | none => Except.error "table posts does not exist"
        | some rows =>
          Except.ok { posts := some (rows ++ [{ ts := some now, title := some t, content := some c }]) } := by
  cases h : tx.posts <;> simp [execStmt, h, evalExprs, evalExpr, buildRow_title_content]

/-- What `tx.Exec` of the insert text returns, by cases on the failure input and the table. -/
theorem Exec_insert (tx : Tx) (env : Env) (t c : String) :
    Exec tx env insertSQL [t, c]
      = match env.execErr with
        | some err => Except.error err
        | none =>
          match tx.posts with
          | none => Except.error "table posts does not exist"
          | some rows =>
            Except.ok { posts := some (rows ++
              [Row.mk (some env.now) (some t) (some c)]) } := by
  unfold Exec
  cases env.execErr with
  | some err => rfl
  | none => simp only [parseSQL_insert, execStmt_insert]

/-- What `tx.Exec` of the table creation returns. -/
theorem Exec_create (tx : Tx) (env : Env) :
    Exec tx env createSQL []
      = match env.execErr with
        | some err => Except.error err
        | none =>
          match tx.posts with
          | some _ => Except.ok tx
          | none => Except.ok { posts := some [] } := by
  unfold Exec
  cases env.execErr with
  | some err => rfl
  | none =>
    simp only [parseSQL_create, execStmt]

/-- What `DB.QueryContext` of the selection text returns. -/
theorem QueryContext_select (db : Store) (env : Env) :
    QueryContext db env selectSQL
      = match env.queryErr with
        | some err => Except.error err
        | none =>
          match db.posts with
          | none => Except.error "table posts does not exist"
          | some rows =>
            match env.iterErr with
            | none => Except.ok { items := orderByTsDesc rows, err := none }
            | some (n, err) =>
              Except.ok { items := (orderByTsDesc rows).take n, err := some err } := by
  unfold QueryContext
  cases env.queryErr with
  | some err => rfl
  | none => simp only [parseSQL_select]

/-- The result of ORDER BY ts DESC is sorted by descending key. -/
theorem orderByTsDesc_sorted (rows : List Row) :
    List.Pairwise (fun a b : Row => b.key ≤ a.key) (orderByTsDesc rows) := by
  haveI : IsTotal Row (fun a b : Row => b.key ≤ a.key) := ⟨fun a b => le_total b.key a.key⟩
  haveI : IsTrans Row (fun a b : Row => b.key ≤ a.key) :=
    ⟨fun a b c hab hbc => le_trans hbc hab⟩
  exact List.sorted_insertionSort (fun a b : Row => b.key ≤ a.key) rows

/-- The result of ORDER BY ts DESC holds exactly the rows of the table. -/
theorem orderByTsDesc_perm (rows : List Row) : (orderByTsDesc rows).Perm rows :=
  List.perm_insertionSort _ rows

/-- Three rows with increasing times come out in reverse order. -/
theorem three_posts_order (t₁ t₂ t₃ : Nat) (a₁ a₂ a₃ b₁ b₂ b₃ : String)
    (h₁₂ : t₁ < t₂) (h₂₃ : t₂ < t₃) :
    orderByTsDesc [Row.mk (some t₁) (some a₁) (some b₁), Row.mk (some t₂) (some a₂) (some b₂),
        Row.mk (some t₃) (some a₃) (some b₃)]
      = [Row.mk (some t₃) (some a₃) (some b₃), Row.mk (some t₂) (some a₂) (some b₂),
        Row.mk (some t₁) (some a₁) (some b₁)] := by
  have e1 : ¬ (t₃ ≤ t₂) := by omega
  have e2 : ¬ (t₃ ≤ t₁) := by omega
  have e3 : ¬ (t₂ ≤ t₁) := by omega
  simp [orderByTsDesc, List.insertionSort, List.orderedInsert, Row.key, e1, e2, e3]

/-- A successful scan returns the post the row holds. -/
theorem Scan_ok (r : Row) (p : Post) (h : Scan r = Except.ok p) : p.toRow = r := by
  obtain ⟨ts, title, content⟩ := r
  cases ts <;> cases title <;> cases content <;> simp [Scan] at h
  subst h
  rfl

/-- A row without NULL scans to its post. -/
theorem Scan_toRow (p : Post) : Scan p.toRow = Except.ok p := rfl

/-- A successful loop has appended one post per row, in order. -/
theorem scanLoop_ok (rows : List Row) (acc posts : List Post)
    (h : scanLoop rows acc = Except.ok posts) :
    ∃ ps, posts = acc ++ ps ∧ ps.map Post.toRow = rows := by
  induction rows generalizing acc with
  | nil =>
    simp only [scanLoop, Except.ok.injEq] at h
    exact ⟨[], by simp [h], rfl⟩
  | cons r rest ih =>
    unfold scanLoop at h
    cases hs : Scan r with
    | error e => simp [hs] at h
    | ok p =>
      simp only [hs] at h
      obtain ⟨ps, h1, h2⟩ := ih _ h
      exact ⟨p :: ps, by simp [h1], by simp [h2, Scan_ok r p hs]⟩

/-- After a successful loop every row of the cursor was scannable. -/
theorem scanLoop_all_scannable (rows : List Row) (acc posts : List Post)
    (h : scanLoop rows acc = Except.ok posts) (r : Row) (hr : r ∈ rows) :
    ∃ p, Scan r = Except.ok p := by
  obtain ⟨ps, _, h2⟩ := scanLoop_ok rows acc posts h
  rw [← h2] at hr
  obtain ⟨p, _, hp⟩ := List.mem_map.mp hr
  exact ⟨p, by rw [← hp]; rfl⟩

/-! ## The submit handler -/

/-- The full outcome of `handlePost` when no step fails and the table exists. -/
theorem handlePost_success (db : Store) (env : Env) (req : Request) (rows : List Row)
    (hb : env.beginErr = none) (he : env.execErr = none) (hc : env.commitErr = none)
    (hp : db.posts = some rows) :
    handlePost db env req =
      { db := { posts := some (rows ++ [Row.mk (some env.now)
                  (some (req.PostFormValue "title")) (some (req.PostFormValue "content"))]) },
        resp := [RespEvent.redirect "/" 302], log := [],
        calls := [Call.beginTx,
          Call.exec insertSQL [req.PostFormValue "title", req.PostFormValue "content"],
          Call.commit, Call.redirect "/" 302] } := by
  simp [handlePost, Begin, Exec_insert, Commit, hb, he, hc, hp, StatusFound]

/-- When a step fails, `handlePost` leaves store and response alone and logs one line. -/
theorem handlePost_failure (db : Store) (env : Env) (req : Request)
    (h : env.beginErr ≠ none ∨ env.execErr ≠ none ∨ env.commitErr ≠ none ∨ db.posts = none) :
    (handlePost db env req).db = db ∧ (handlePost db env req).resp = [] ∧
    (handlePost db env req).log.length = 1 := by
  unfold handlePost Begin
  cases hb : env.beginErr with
  | some e => simp
  | none =>
    simp only [Exec_insert]
    cases he : env.execErr with
    | some e => simp
    | none =>
      cases hp : db.posts with
      | none => simp
      | some rows =>
        unfold Commit
        cases hc : env.commitErr with
        | some e => simp
        | none => simp [hb, he, hc, hp] at h

/-- Every Exec call of `handlePost` is the insert text with the two form values. -/
theorem handlePost_exec_calls (db : Store) (env : Env) (req : Request) (q : String)
    (a : List String) (h : Call.exec q a ∈ (handlePost db env req).calls) :
    q = insertSQL ∧ a = [req.PostFormValue "title", req.PostFormValue "content"] := by
  unfold handlePost at h
  cases hB : Begin db env with
  | error e => simp [hB] at h
  | ok tx =>
    cases hE : Exec tx env insertSQL
        [req.PostFormValue "title", req.PostFormValue "content"] with
    | error e => simpa [hB, hE] using h
    | ok tx1 =>
      cases hC : Commit tx1 env with
      | error e => simpa [hB, hE, hC] using h
      | ok db1 => simpa [hB, hE, hC] using h

/-- Once the transaction has begun, the insert is executed. -/
theorem handlePost_exec_called (db : Store) (env : Env) (req : Request)
    (hb : env.beginErr = none) :
    Call.exec insertSQL [req.PostFormValue "title", req.PostFormValue "content"]
      ∈ (handlePost db env req).calls := by
  unfold handlePost
  simp only [Begin, hb]
  cases hE : Exec db env insertSQL
      [req.PostFormValue "title", req.PostFormValue "content"] with
  | error e => simp
  | ok tx1 =>
    cases hC : Commit tx1 env with
    | error e => simp [hC]
    | ok db1 => simp [hC]

/-- The library calls `handlePost` can make. -/
theorem handlePost_calls_shape (db : Store) (env : Env) (req : Request) (c : Call)
    (h : c ∈ (handlePost db env req).calls) :
    c = Call.beginTx ∨
    c = Call.exec insertSQL [req.PostFormValue "title", req.PostFormValue "content"] ∨
    c = Call.commit ∨ c = Call.redirect "/" 302 := by
  unfold handlePost at h
  cases hB : Begin db env with
  | error e => simp [hB] at h; simp [h]
  | ok tx =>
    cases hE : Exec tx env insertSQL
        [req.PostFormValue "title", req.PostFormValue "content"] with
    | error e =>
      simp only [hB, hE, List.mem_cons, List.mem_singleton, List.not_mem_nil, or_false] at h
      rcases h with h | h <;> simp [h]
    | ok tx1 =>
      cases hC : Commit tx1 env with
      | error e =>
        simp only [hB, hE, hC, List.mem_cons, List.mem_singleton, List.not_mem_nil,
          or_false] at h
        rcases h with h | h | h <;> simp [h]
      | ok db1 =>
        simp only [hB, hE, hC, List.mem_cons, List.mem_singleton, List.not_mem_nil,
          or_false, StatusFound] at h
        rcases h with h | h | h | h <;> simp [h]

/-- The store after a submission that meets no failure. -/
theorem handlePost_quiet_db (rows : List Row) (t : Nat) (req : Request) :
    (handlePost { posts := some rows } (Env.quiet t) req).db
      = { posts := some (rows ++ [Row.mk (some t) (some (req.PostFormValue "title"))
            (some (req.PostFormValue "content"))]) } := by
  rw [handlePost_success { posts := some rows } (Env.quiet t) req rows rfl rfl rfl rfl]
  rfl

/-- The rows before `handlePost` are an initial segment of the rows after it. -/
theorem handlePost_keeps_rows (db : Store) (env : Env) (req : Request) :
    db.rows <+: (handlePost db env req).db.rows := by
  by_cases hf : env.beginErr ≠ none ∨ env.execErr ≠ none ∨ env.commitErr ≠ none ∨
      db.posts = none
  · rw [(handlePost_failure db env req hf).1]
  · simp only [not_or, not_not] at hf
    obtain ⟨hb, he, hc, hp⟩ := hf
    obtain ⟨rows, hrows⟩ := Option.ne_none_iff_exists'.mp hp
    rw [handlePost_success db env req rows hb he hc hrows]
    simp [Store.rows, hrows]

/-- Claim C1. For every request, `handlePost` answers with the redirect 302 to `/` exactly
when beginning the transaction, executing the insert and committing all succeed; when one
of the three steps fails, it writes nothing to the response and logs that one error. -/
theorem handlePost_redirect_iff_all_steps_succeed (db : Store) (env : Env) (req : Request) :
    ((handlePost db env req).resp = [RespEvent.redirect "/" 302] ↔
      ∃ tx tx1 db1, Begin db env = Except.ok tx ∧
        Exec tx env insertSQL [req.PostFormValue "title", req.PostFormValue "content"]
          = Except.ok tx1 ∧
        Commit tx1 env = Except.ok db1) ∧
    (∀ err, Begin db env = Except.error err →
      (handlePost db env req).resp = [] ∧
      (handlePost db env req).log
        = [{ format := "Error: Failed to being transaction: %v", args := [err] }]) ∧
    (∀ tx err, Begin db env = Except.ok tx →
      Exec tx env insertSQL [req.PostFormValue "title", req.PostFormValue "content"]
        = Except.error err →
      (handlePost db env req).resp = [] ∧
      (handlePost db env req).log
        = [{ format := "Error: Failed to insert post: %v", args := [err] }]) ∧
    (∀ tx tx1 err, Begin db env = Except.ok tx →
      Exec tx env insertSQL [req.PostFormValue "title", req.PostFormValue "content"]
        = Except.ok tx1 →
      Commit tx1 env = Except.error err →
      (handlePost db env req).resp = [] ∧
      (handlePost db env req).log
        = [{ format := "Error: Failed to commit transaction: %v", args := [err] }]) := by
  refine ⟨?_, ?_, ?_, ?_⟩
  · cases hB : Begin db env with
    | error e => simp [handlePost, hB]
    | ok tx =>
      cases hE : Exec tx env insertSQL
          [req.PostFormValue "title", req.PostFormValue "content"] with
      | error e => simp [handlePost, hB, hE]
      | ok tx1 =>
        cases hC : Commit tx1 env with
        | error e => simp [handlePost, hB, hE, hC]
        | ok db1 => simp [handlePost, hB, hE, hC, StatusFound]
  · intro err hB
    simp [handlePost, hB]
  · intro tx err hB hE
    simp [handlePost, hB, hE]
  · intro tx tx1 err hB hE hC
    simp [handlePost, hB, hE, hC]

/-- A submission that meets no failure is redirected; one whose commit fails gets an empty
response and the commit log line. -/
theorem handlePost_redirect_witness :
    (handlePost emptyStore (Env.quiet 5) helloRequest).resp = [RespEvent.redirect "/" 302] ∧
    ((handlePost emptyStore commitFails helloRequest).resp = [] ∧
      (handlePost emptyStore commitFails helloRequest).log
        = [{ format := "Error: Failed to commit transaction: %v", args := ["disk full"] }]) :=
  ⟨(handlePost_redirect_iff_all_steps_succeed emptyStore (Env.quiet 5) helloRequest).1.mpr
      ⟨emptyStore,
        { posts := some [Row.mk (some 5) (some "<b>Hello</b>") (some "World & \"more\"")] },
        { posts := some [Row.mk (some 5) (some "<b>Hello</b>") (some "World & \"more\"")] },
        rfl, rfl, rfl⟩,
    (handlePost_redirect_iff_all_steps_succeed emptyStore commitFails helloRequest).2.2.2
      emptyStore
      { posts := some [Row.mk (some 5) (some "<b>Hello</b>") (some "World & \"more\"")] }
      "disk full" rfl rfl rfl⟩

/-- Claim C2. The values `handlePost` binds to the insert are the form values `title` and
`content` of the request, in that order; a key that is absent from the form reads as the
empty string and is no failure: without external failures the submission is stored and
answered with the redirect, and a form without `content` stores the empty string. -/
theorem handlePost_binds_form_fields (db : Store) (env : Env) (req : Request) :
    (∀ q a, Call.exec q a ∈ (handlePost db env req).calls →
      a = [req.PostFormValue "title", req.PostFormValue "content"]) ∧
    (env.beginErr = none →
      Call.exec insertSQL [req.PostFormValue "title", req.PostFormValue "content"]
        ∈ (handlePost db env req).calls) ∧
    (∀ key, req.PostForm.lookup key = none → req.PostFormValue key = "") ∧
    (∀ key v vs, req.PostForm.lookup key = some (v :: vs) → req.PostFormValue key = v) ∧
    (∀ rows, db.posts = some rows → env.beginErr = none → env.execErr = none →
      env.commitErr = none →
      (handlePost db env req).resp = [RespEvent.redirect "/" 302] ∧
      (handlePost db env req).db.posts = some (rows ++ [Row.mk (some env.now)
          (some (req.PostFormValue "title")) (some (req.PostFormValue "content"))]) ∧
      (req.PostForm.lookup "content" = none →
        (handlePost db env req).db.posts = some (rows ++ [Row.mk (some env.now)
          (some (req.PostFormValue "title")) (some "")]))) := by
  refine ⟨fun q a h => (handlePost_exec_calls db env req q a h).2,
    handlePost_exec_called db env req, ?_, ?_, ?_⟩
  · intro key hk
    simp [Request.PostFormValue, hk]
  · intro key v vs hk
    simp [Request.PostFormValue, hk]
  · intro rows hp hb he hc
    rw [handlePost_success db env req rows hb he hc hp]
    refine ⟨rfl, rfl, ?_⟩
    intro hk
    simp [Request.PostFormValue, hk]

/-- A form without `content` is stored with empty content and redirected. -/
theorem handlePost_binds_form_fields_witness :
    (handlePost emptyStore (Env.quiet 5) titleOnlyRequest).resp
      = [RespEvent.redirect "/" 302] ∧
    (handlePost emptyStore (Env.quiet 5) titleOnlyRequest).db.posts
      = some [Row.mk (some 5) (some "only a title") (some "")] ∧
    Call.exec insertSQL ["only a title", ""]
      ∈ (handlePost emptyStore (Env.quiet 5) titleOnlyRequest).calls := by
  have h := handlePost_binds_form_fields emptyStore (Env.quiet 5) titleOnlyRequest
  obtain ⟨hr, _, hc⟩ := h.2.2.2.2 [] rfl rfl rfl rfl
  exact ⟨hr, hc (by decide), h.2.1 rfl⟩

/-- Claim C9. The insert is parameterized: the statement text `handlePost` sends is the same
constant for any two requests, the form values occur only as its two bound arguments, the
calls of the handler are fixed apart from those arguments, the statement names neither the
column `ts` nor a time value, and the time of the inserted row is the store clock, the same
for any two requests served at the same clock value. -/
theorem insert_is_parameterized (db₁ db₂ : Store) (env₁ env₂ : Env) (req₁ req₂ : Request) :
    (∀ q₁ a₁ q₂ a₂, Call.exec q₁ a₁ ∈ (handlePost db₁ env₁ req₁).calls →
      Call.exec q₂ a₂ ∈ (handlePost db₂ env₂ req₂).calls →
      q₁ = q₂ ∧ q₁ = "INSERT INTO posts (title, content) VALUES ($1, $2)" ∧
      a₁ = [req₁.PostFormValue "title", req₁.PostFormValue "content"] ∧
      a₂ = [req₂.PostFormValue "title", req₂.PostFormValue "content"]) ∧
    (∀ c ∈ (handlePost db₁ env₁ req₁).calls,
      c = Call.beginTx ∨
      c = Call.exec insertSQL [req₁.PostFormValue "title", req₁.PostFormValue "content"] ∨
      c = Call.commit ∨ c = Call.redirect "/" 302) ∧
    (∃ cols values, parseSQL insertSQL = some (Stmt.insertInto cols values) ∧
      "ts" ∉ cols ∧ Expr.now ∉ values ∧ cols.length = 2 ∧ values.length = 2) ∧
    (∀ row rows, db₁.posts = some rows →
      (handlePost db₁ env₁ req₁).db.posts = some (rows ++ [row]) →
      row.ts = some env₁.now) ∧
    (env₁.now = env₂.now →
      ∀ row₁ row₂ rows₁ rows₂, db₁.posts = some rows₁ → db₂.posts = some rows₂ →
      (handlePost db₁ env₁ req₁).db.posts = some (rows₁ ++ [row₁]) →
      (handlePost db₂ env₂ req₂).db.posts = some (rows₂ ++ [row₂]) →
      row₁.ts = row₂.ts) := by
  have key : ∀ (db : Store) (env : Env) (req : Request) (row : Row) (rows : List Row),
      db.posts = some rows → (handlePost db env req).db.posts = some (rows ++ [row]) →
      row.ts = some env.now := by
    intro db env req row rows hp h
    by_cases hf : env.beginErr ≠ none ∨ env.execErr ≠ none ∨ env.commitErr ≠ none ∨
        db.posts = none
    · rw [(handlePost_failure db env req hf).1, hp] at h
      simp at h
    · simp only [not_or, not_not] at hf
      obtain ⟨hb, he, hc, _⟩ := hf
      rw [handlePost_success db env req rows hb he hc hp] at h
      simp at h
      rw [← h]
  refine ⟨?_, handlePost_calls_shape db₁ env₁ req₁,
    ⟨_, _, parseSQL_insert, by decide, by decide, rfl, rfl⟩, key db₁ env₁ req₁, ?_⟩
  · intro q₁ a₁ q₂ a₂ h₁ h₂
    obtain ⟨e₁, e₁'⟩ := handlePost_exec_calls _ _ _ _ _ h₁
    obtain ⟨e₂, e₂'⟩ := handlePost_exec_calls _ _ _ _ _ h₂
    exact ⟨e₁.trans e₂.symm, e₁, e₁', e₂'⟩
  · intro hnow row₁ row₂ rows₁ rows₂ hp₁ hp₂ h₁ h₂
    rw [key db₁ env₁ req₁ row₁ rows₁ hp₁ h₁, key db₂ env₂ req₂ row₂ rows₂ hp₂ h₂, hnow]

/-- Two different submissions at clock value 5 are both stamped 5. -/
theorem insert_is_parameterized_witness :
    (Row.mk (some 5) (some "<b>Hello</b>") (some "World & \"more\"")).ts
      = (Row.mk (some 5) (some "only a title") (some "")).ts :=
  (insert_is_parameterized emptyStore emptyStore (Env.quiet 5) (Env.quiet 5) helloRequest
    titleOnlyRequest).2.2.2.2 rfl _ _ [] [] rfl rfl (by decide) (by decide)

/-! ## The template -/

/-- The eight cases of the replacement table. -/
theorem htmlReplace_cases (c : Char) :
    (c = Char.ofNat 0 ∧ htmlReplace c = "\uFFFD".data) ∨
    (c = Char.ofNat 34 ∧ htmlReplace c = "&#34;".data) ∨
    (c = '&' ∧ htmlReplace c = "&amp;".data) ∨
    (c = Char.ofNat 39 ∧ htmlReplace c = "&#39;".data) ∨
    (c = '+' ∧ htmlReplace c = "&#43;".data) ∨
    (c = '<' ∧ htmlReplace c = "&lt;".data) ∨
    (c = '>' ∧ htmlReplace c = "&gt;".data) ∨
    ((c ≠ Char.ofNat 0 ∧ c ≠ Char.ofNat 34 ∧ c ≠ '&' ∧ c ≠ Char.ofNat 39 ∧ c ≠ '+' ∧
        c ≠ '<' ∧ c ≠ '>') ∧ htmlReplace c = [c]) := by
  unfold htmlReplace htmlReplacementTable
  by_cases h0 : c = Char.ofNat 0
  · subst h0; left; exact ⟨rfl, by decide⟩
  by_cases h1 : c = Char.ofNat 34
  · subst h1; right; left; exact ⟨rfl, by decide⟩
  by_cases h2 : c = '&'
  · subst h2; right; right; left; exact ⟨rfl, by decide⟩
  by_cases h3 : c = Char.ofNat 39
  · subst h3; right; right; right; left; exact ⟨rfl, by decide⟩
  by_cases h4 : c = '+'
  · subst h4; right; right; right; right; left; exact ⟨rfl, by decide⟩
  by_cases h5 : c = '<'
  · subst h5; right; right; right; right; right; left; exact ⟨rfl, by decide⟩
  by_cases h6 : c = '>'
  · subst h6; right; right; right; right; right; right; left; exact ⟨rfl, by decide⟩
  · right; right; right; right; right; right; right
    exact ⟨⟨h0, h1, h2, h3, h4, h5, h6⟩, by simp [h0, h1, h2, h3, h4, h5, h6]⟩

/-- No character of a replacement is one of the five characters the escaper removes. -/
theorem htmlReplace_clean (c d : Char) (hd : d ∈ htmlReplace c) :
    d ≠ '<' ∧ d ≠ '>' ∧ d ≠ Char.ofNat 34 ∧ d ≠ Char.ofNat 39 ∧ d ≠ Char.ofNat 0 := by
  rcases htmlReplace_cases c with h | h | h | h | h | h | h | h <;>
    obtain ⟨h1, h2⟩ := h <;> rw [h2] at hd
  · simp at hd; subst hd; decide
  · simp at hd; rcases hd with rfl | rfl | rfl | rfl | rfl <;> decide
  · simp at hd; rcases hd with rfl | rfl | rfl | rfl | rfl <;> decide
  · simp at hd; rcases hd with rfl | rfl | rfl | rfl | rfl <;> decide
  · simp at hd; rcases hd with rfl | rfl | rfl | rfl | rfl <;> decide
  · simp at hd; rcases hd with rfl | rfl | rfl | rfl <;> decide
  · simp at hd; rcases hd with rfl | rfl | rfl | rfl <;> decide
  · simp at hd; subst hd
    obtain ⟨a0, a1, _, a3, _, a5, a6⟩ := h1
    exact ⟨a5, a6, a1, a3, a0⟩

/-- Escaped text holds none of the five characters. -/
theorem escapeChars_clean (l : List Char) (d : Char) (hd : d ∈ escapeChars l) :
    d ≠ '<' ∧ d ≠ '>' ∧ d ≠ Char.ofNat 34 ∧ d ≠ Char.ofNat 39 ∧ d ≠ Char.ofNat 0 := by
  induction l with
  | nil => simp [escapeChars] at hd
  | cons c cs ih =>
    simp only [escapeChars, List.mem_append] at hd
    rcases hd with h | h
    · exact htmlReplace_clean c d h
    · exact ih h

/-- A replacement put in front of well-formed text keeps it well formed. -/
theorem ampOK_replace_append (c : Char) (rest : List Char) (h : ampOK rest = true) :
    ampOK (htmlReplace c ++ rest) = true := by
  rcases htmlReplace_cases c with h' | h' | h' | h' | h' | h' | h' | h' <;>
    obtain ⟨h1, h2⟩ := h' <;> rw [h2]
  · simpa [ampOK] using h
  · simpa [ampOK, entities] using h
  · simpa [ampOK, entities] using h
  · simpa [ampOK, entities] using h
  · simpa [ampOK, entities] using h
  · simpa [ampOK, entities] using h
  · simpa [ampOK, entities] using h
  · obtain ⟨_, _, a2, _⟩ := h1
    simp [ampOK, a2, h]

/-- In escaped text every ampersand starts a character reference. -/
theorem ampOK_escapeChars (l : List Char) : ampOK (escapeChars l) = true := by
  induction l with
  | nil => rfl
  | cons c cs ih => exact ampOK_replace_append c _ ih

/-- What `ampOK` says at one ampersand of the text. -/
theorem ampOK_split (l pre post : List Char) (h : ampOK l = true)
    (hl : l = pre ++ '&' :: post) : ∃ e ∈ entities, e <+: post := by
  induction pre generalizing l with
  | nil =>
    subst hl
    simp only [List.nil_append, ampOK, bne_self_eq_false, Bool.false_or, Bool.and_eq_true,
      List.any_eq_true] at h
    obtain ⟨⟨e, he, hp⟩, _⟩ := h
    exact ⟨e, he, List.isPrefixOf_iff_prefix.mp hp⟩
  | cons c cs ih =>
    subst hl
    simp only [List.cons_append, ampOK, Bool.and_eq_true] at h
    exact ih _ h.2 rfl

/-- Two tag-safe texts stay tag-safe when joined. -/
theorem tagSafe_append (l₁ l₂ : List Char) (h₁ : tagSafe l₁ = true) (h₂ : tagSafe l₂ = true) :
    tagSafe (l₁ ++ l₂) = true := by
  induction l₁ with
  | nil => simpa using h₂
  | cons c rest ih =>
    simp only [tagSafe, Bool.and_eq_true, Bool.or_eq_true] at h₁
    obtain ⟨hc, hr⟩ := h₁
    simp only [List.cons_append, tagSafe, Bool.and_eq_true, Bool.or_eq_true]
    refine ⟨?_, ih hr⟩
    rcases hc with hc | hc
    · exact Or.inl hc
    · right
      match rest, hc with
      | a :: b :: r, hc => simpa using hc

/-- A text without `<` is tag-safe. -/
theorem tagSafe_of_no_lt (l : List Char) (h : ∀ c ∈ l, c ≠ '<') : tagSafe l = true := by
  induction l with
  | nil => rfl
  | cons c rest ih =>
    simp only [tagSafe, Bool.and_eq_true, Bool.or_eq_true]
    refine ⟨Or.inl ?_, ih (fun d hd => h d (List.mem_cons_of_mem _ hd))⟩
    simpa using h c (List.mem_cons_self _ _)

/-- Every end piece of a tag-safe text is tag-safe. -/
theorem tagSafe_suffix (s x : List Char) (h : tagSafe (s ++ x) = true) : tagSafe x = true := by
  induction s with
  | nil => simpa using h
  | cons c rest ih =>
    simp only [List.cons_append, tagSafe, Bool.and_eq_true] at h
    exact ih h.2

/-- A tag-safe text does not contain `<script`. -/
theorem tagSafe_no_script (l : List Char) (h : tagSafe l = true) :
    ¬ ("<script".data <:+: l) := by
  rintro ⟨s, t, hst⟩
  subst hst
  rw [List.append_assoc] at h
  have h2 := tagSafe_suffix s _ h
  simp [tagSafe] at h2

set_option maxRecDepth 100000 in
/-- The head of the template is tag-safe. -/
theorem tagSafe_pageHead : tagSafe pageHead.data = true := by decide

/-- The other fixed pieces of the template are tag-safe. -/
theorem tagSafe_static :
    tagSafe blockOpen.data = true ∧ tagSafe blockMid.data = true ∧
    tagSafe blockClose.data = true ∧ tagSafe pageTail.data = true := by decide

/-- Escaped text is tag-safe. -/
theorem tagSafe_htmlEscaper (s : String) : tagSafe (htmlEscaper s).data = true :=
  tagSafe_of_no_lt _ (fun c hc => (escapeChars_clean s.data c hc).1)

/-- A post block is tag-safe. -/
theorem tagSafe_postBlock (p : Post) : tagSafe (postBlock p).data = true := by
  obtain ⟨h1, h2, h3, _⟩ := tagSafe_static
  simp only [postBlock, String.data_append]
  exact tagSafe_append _ _ (tagSafe_append _ _ (tagSafe_append _ _ (tagSafe_append _ _ h1
    (tagSafe_htmlEscaper _)) h2) (tagSafe_htmlEscaper _)) h3

/-- The output of the range action is tag-safe. -/
theorem tagSafe_execRange (posts : List Post) : tagSafe (execRange posts).data = true := by
  induction posts with
  | nil => rfl
  | cons p ps ih =>
    simp only [execRange, String.data_append]
    exact tagSafe_append _ _ (tagSafe_postBlock p) ih

/-- The page is tag-safe. -/
theorem tagSafe_execMain (posts : List Post) : tagSafe (execMain posts).data = true := by
  simp only [execMain, String.data_append]
  exact tagSafe_append _ _ (tagSafe_append _ _ tagSafe_pageHead (tagSafe_execRange posts))
    tagSafe_static.2.2.2

/-- The accumulator of `String.join` can be pulled out in front. -/
theorem join_foldl_acc (l : List String) (acc : String) :
    l.foldl (fun r s => r ++ s) acc = acc ++ l.foldl (fun r s => r ++ s) "" := by
  induction l generalizing acc with
  | nil => simp
  | cons s ss ih =>
    simp only [List.foldl_cons, String.empty_append]
    rw [ih (acc ++ s), ih s, String.append_assoc]

/-- The range action writes the post blocks one after the other. -/
theorem execRange_eq_join (posts : List Post) :
    execRange posts = String.join (posts.map postBlock) := by
  induction posts with
  | nil => rfl
  | cons p ps ih =>
    simp only [execRange, List.map_cons, String.join, List.foldl_cons, String.empty_append]
    rw [join_foldl_acc, ih]
    rfl

/-- Escaped text has no `<`. -/
theorem count_lt_htmlEscaper (s : String) : (htmlEscaper s).data.count '<' = 0 :=
  List.count_eq_zero.mpr (fun hc => (escapeChars_clean s.data _ hc).1 rfl)

set_option maxRecDepth 100000 in
/-- The number of `<` in the fixed pieces of the template. -/
theorem count_lt_static :
    pageHead.data.count '<' = 18 ∧ blockOpen.data.count '<' = 2 ∧
    blockMid.data.count '<' = 2 ∧ blockClose.data.count '<' = 2 ∧
    pageTail.data.count '<' = 2 := by decide

/-- Each post block has six `<`, all from the template. -/
theorem count_lt_execRange (posts : List Post) :
    (execRange posts).data.count '<' = 6 * posts.length := by
  induction posts with
  | nil => rfl
  | cons p ps ih =>
    obtain ⟨_, h1, h2, h3, _⟩ := count_lt_static
    simp only [execRange, postBlock, String.data_append, List.count_append, ih,
      count_lt_htmlEscaper, h1, h2, h3, List.length_cons]
    omega

/-- Claim C3. For every list of posts, the page of template `main` holds the title and the
content of each post only in escaped form: the escaped text has no `<`, `>`, double quote,
single quote or NUL, every `&` in it starts a character reference, the page is the fixed
head, one block per post and the fixed tail, so the number of `<` in the page depends only on
the number of posts, the page never contains `<script`, and the title `<b>x</b>` is rendered
as `&lt;b&gt;x&lt;/b&gt;`. -/
theorem rendered_page_escapes_posts (posts : List Post) :
    (∀ p ∈ posts, ∀ c : Char,
      c ∈ (htmlEscaper p.Title).data ∨ c ∈ (htmlEscaper p.Content).data →
      c ≠ '<' ∧ c ≠ '>' ∧ c ≠ Char.ofNat 34 ∧ c ≠ Char.ofNat 39 ∧ c ≠ Char.ofNat 0) ∧
    (∀ p ∈ posts, ∀ pre post : List Char,
      (htmlEscaper p.Title).data = pre ++ '&' :: post ∨
        (htmlEscaper p.Content).data = pre ++ '&' :: post →
      ∃ e ∈ ["amp;".data, "lt;".data, "gt;".data, "#34;".data, "#39;".data, "#43;".data],
        e <+: post) ∧
    execMain posts = pageHead ++ String.join (posts.map (fun p =>
      blockOpen ++ htmlEscaper p.Title ++ blockMid ++ htmlEscaper p.Content ++ blockClose))
      ++ pageTail ∧
    (execMain posts).data.count '<' = 20 + 6 * posts.length ∧
    ¬ ("<script".data <:+: (execMain posts).data) ∧
    htmlEscaper "<b>x</b>" = "&lt;b&gt;x&lt;/b&gt;" ∧
    htmlEscaper "a & \"b\"" = "a &amp; &#34;b&#34;" := by
  refine ⟨?_, ?_, ?_, ?_, tagSafe_no_script _ (tagSafe_execMain posts), by decide, by decide⟩
  · intro p _ c hc
    rcases hc with hc | hc
    · exact escapeChars_clean _ c hc
    · exact escapeChars_clean _ c hc
  · intro p _ pre post h
    rcases h with h | h
    · exact ampOK_split _ pre post (ampOK_escapeChars _) h
    · exact ampOK_split _ pre post (ampOK_escapeChars _) h
  · rw [execMain, execRange_eq_join]
    rfl
  · obtain ⟨h0, _, _, _, h4⟩ := count_lt_static
    simp only [execMain, String.data_append, List.count_append, count_lt_execRange, h0, h4]
    omega

/-- A post made of script tags adds no `<` to the page. -/
theorem rendered_page_escapes_posts_witness :
    ¬ ("<script".data <:+:
        (execMain [Post.mk 1 "<script>alert(1)</script>" "<script src=x>"]).data) ∧
    (execMain [Post.mk 1 "<script>alert(1)</script>" "<script src=x>"]).data.count '<' = 26 :=
  ⟨(rendered_page_escapes_posts
      [Post.mk 1 "<script>alert(1)</script>" "<script src=x>"]).2.2.2.2.1,
    (rendered_page_escapes_posts
      [Post.mk 1 "<script>alert(1)</script>" "<script src=x>"]).2.2.2.1⟩

/-! ## The index handler -/

/-- When `handleMain` executes a template, nothing failed before, the posts are the ordered
rows, and the response is what the execution wrote. -/
theorem handleMain_rendered (db : Store) (env : Env) (req : Request) (name : String)
    (posts : List Post)
    (h : Call.executeTemplate name posts ∈ (handleMain db env req).calls) :
    name = "main" ∧ env.queryErr = none ∧ env.iterErr = none ∧
    (∃ rows, db.posts = some rows ∧ posts.map Post.toRow = orderByTsDesc rows) ∧
    (handleMain db env req).resp = (ExecuteTemplate env "main" posts).1 := by
  unfold handleMain at h ⊢
  rw [QueryContext_select] at h ⊢
  cases hq : env.queryErr with
  | some e => simp [hq] at h
  | none =>
    cases hp : db.posts with
    | none => simp [hq, hp] at h
    | some rows =>
      cases hi : env.iterErr with
      | some ne =>
        obtain ⟨n, e⟩ := ne
        simp only [hq, hp, hi] at h
        cases hs : scanLoop (List.take n (orderByTsDesc rows)) [] with
        | error e => simp [hs] at h
        | ok ps => simp [hs] at h
      | none =>
        simp only [hq, hp, hi] at h ⊢
        cases hs : scanLoop (orderByTsDesc rows) [] with
        | error e => simp [hs] at h
        | ok ps =>
          simp only [hs] at h ⊢
          obtain ⟨ps', h1, h2⟩ := scanLoop_ok _ _ _ hs
          simp only [List.nil_append] at h1
          subst h1
          cases ht : ExecuteTemplate env "main" ps with
          | mk written oerr =>
            cases oerr with
            | some e =>
              simp only [ht, List.mem_cons, Call.executeTemplate.injEq, reduceCtorEq,
                List.mem_singleton, false_or, or_false, List.not_mem_nil] at h
              obtain ⟨hn, hps⟩ := h
              subst hps
              exact ⟨hn, by trivial, by trivial, ⟨rows, rfl, h2⟩, by simp [ht]⟩
            | none =>
              simp only [ht, List.mem_cons, Call.executeTemplate.injEq, reduceCtorEq,
                List.mem_singleton, false_or, or_false, List.not_mem_nil] at h
              obtain ⟨hn, hps⟩ := h
              subst hps
              exact ⟨hn, by trivial, by trivial, ⟨rows, rfl, h2⟩, by simp [ht]⟩

/-- Posts scanned from ordered rows are ordered by descending time. -/
theorem posts_sorted_of_rows (posts : List Post) (rows : List Row)
    (h : posts.map Post.toRow = orderByTsDesc rows) :
    List.Pairwise (fun p q : Post => q.Time ≤ p.Time) posts := by
  have hs := orderByTsDesc_sorted rows
  rw [← h, List.pairwise_map] at hs
  refine hs.imp ?_
  intro p q hpq
  simpa [Post.toRow, Row.key] using hpq

/-- Without failures and NULLs `handleMain` executes the template on the ordered posts. -/
theorem handleMain_success (db : Store) (env : Env) (req : Request) (rows : List Row)
    (posts : List Post) (hq : env.queryErr = none) (hi : env.iterErr = none)
    (hp : db.posts = some rows) (hrows : orderByTsDesc rows = posts.map Post.toRow) :
    Call.executeTemplate "main" posts ∈ (handleMain db env req).calls ∧
    (handleMain db env req).resp = (ExecuteTemplate env "main" posts).1 := by
  have hs : ∀ (ps acc : List Post), scanLoop (ps.map Post.toRow) acc = Except.ok (acc ++ ps) := by
    intro ps
    induction ps with
    | nil => intro acc; simp [scanLoop]
    | cons p ps ih =>
      intro acc
      simp only [List.map_cons, scanLoop, Scan_toRow, ih]
      simp
  unfold handleMain
  rw [QueryContext_select]
  simp only [hq, hi, hp, hrows, hs posts [], List.nil_append]
  cases ht : ExecuteTemplate env "main" posts with
  | mk written oerr =>
    cases oerr with
    | some e => simp
    | none => simp

/-- The index handler never changes the store. -/
theorem handleMain_db (db : Store) (env : Env) (req : Request) :
    (handleMain db env req).db = db := by
  cases hQ : QueryContext db env selectSQL with
  | error e => simp [handleMain, hQ]
  | ok rows =>
    cases hS : scanLoop rows.items [] with
    | error e => simp [handleMain, hQ, hS]
    | ok ps =>
      cases hE : rows.err with
      | some e => simp [handleMain, hQ, hS, hE]
      | none =>
        cases hT : ExecuteTemplate env "main" ps with
        | mk written oerr => cases oerr <;> simp [handleMain, hQ, hS, hE, hT]

/-- Claim C4. Whenever `handleMain` executes the template, the posts it passes are all rows
of the store, ordered by time descending, and the page written is the head, the post blocks
in exactly that order, and the tail. After three submissions with increasing clock values
`t₁ < t₂ < t₃` into an empty table, the posts listed and rendered are the third, the second,
the first. -/
theorem handleMain_lists_newest_first (db : Store) (env : Env) (req : Request) :
    (∀ posts, Call.executeTemplate "main" posts ∈ (handleMain db env req).calls →
      List.Pairwise (fun p q : Post => q.Time ≤ p.Time) posts ∧
      (posts.map Post.toRow).Perm db.rows ∧
      (env.writeErr = none →
        (handleMain db env req).resp =
          [RespEvent.write (pageHead ++ String.join (posts.map postBlock) ++ pageTail)])) ∧
    (∀ (t₁ t₂ t₃ : Nat) (r₁ r₂ r₃ : Request), t₁ < t₂ → t₂ < t₃ →
      env.queryErr = none → env.iterErr = none → env.writeErr = none →
      db = (handlePost (handlePost (handlePost { posts := some [] } (Env.quiet t₁) r₁).db
              (Env.quiet t₂) r₂).db (Env.quiet t₃) r₃).db →
      Call.executeTemplate "main"
          [Post.mk t₃ (r₃.PostFormValue "title") (r₃.PostFormValue "content"),
           Post.mk t₂ (r₂.PostFormValue "title") (r₂.PostFormValue "content"),
           Post.mk t₁ (r₁.PostFormValue "title") (r₁.PostFormValue "content")]
        ∈ (handleMain db env req).calls ∧
      (handleMain db env req).resp = [RespEvent.write (execMain
          [Post.mk t₃ (r₃.PostFormValue "title") (r₃.PostFormValue "content"),
           Post.mk t₂ (r₂.PostFormValue "title") (r₂.PostFormValue "content"),
           Post.mk t₁ (r₁.PostFormValue "title") (r₁.PostFormValue "content")])]) ∧
    (∀ posts, execMain posts = pageHead ++ String.join (posts.map postBlock) ++ pageTail) := by
  refine ⟨?_, ?_, fun posts => by rw [execMain, execRange_eq_join]⟩
  · intro posts h
    obtain ⟨_, _, _, ⟨rows, hp, hrows⟩, hresp⟩ := handleMain_rendered db env req "main" posts h
    refine ⟨posts_sorted_of_rows posts rows hrows, ?_, ?_⟩
    · rw [hrows]
      simpa [Store.rows, hp] using orderByTsDesc_perm rows
    · intro hw
      rw [hresp, ← execRange_eq_join]
      simp [ExecuteTemplate, hw, execMain]
  · intro t₁ t₂ t₃ r₁ r₂ r₃ h₁₂ h₂₃ hq hi hw hdb
    simp only [handlePost_quiet_db, List.nil_append, List.cons_append] at hdb
    subst hdb
    obtain ⟨hc, hr⟩ := handleMain_success _ env req _
      [Post.mk t₃ (r₃.PostFormValue "title") (r₃.PostFormValue "content"),
       Post.mk t₂ (r₂.PostFormValue "title") (r₂.PostFormValue "content"),
       Post.mk t₁ (r₁.PostFormValue "title") (r₁.PostFormValue "content")] hq hi rfl
      (by rw [three_posts_order _ _ _ _ _ _ _ _ _ h₁₂ h₂₃]; rfl)
    refine ⟨hc, ?_⟩
    rw [hr]
    simp [ExecuteTemplate, hw]

/-- Posts submitted at 10, 20 and 30 are listed 30, 20, 10. -/
theorem handleMain_lists_newest_first_witness :
    Call.executeTemplate "main"
        [Post.mk 30 "three" "c", Post.mk 20 "two" "b", Post.mk 10 "one" "a"]
      ∈ (handleMain
          (handlePost (handlePost (handlePost emptyStore (Env.quiet 10)
              (Request.mk "POST" "/post" [("title", ["one"]), ("content", ["a"])])).db
            (Env.quiet 20) (Request.mk "POST" "/post" [("title", ["two"]), ("content", ["b"])])).db
            (Env.quiet 30)
            (Request.mk "POST" "/post" [("title", ["three"]), ("content", ["c"])])).db
          (Env.quiet 40) indexRequest).calls :=
  ((handleMain_lists_newest_first _ (Env.quiet 40) indexRequest).2.1 10 20 30
    (Request.mk "POST" "/post" [("title", ["one"]), ("content", ["a"])])
    (Request.mk "POST" "/post" [("title", ["two"]), ("content", ["b"])])
    (Request.mk "POST" "/post" [("title", ["three"]), ("content", ["c"])])
    (by decide) (by decide) rfl rfl rfl rfl).1

/-- Claim C5. Round trip: when a submission was answered with the redirect and a later
`handleMain` executes the template with `posts`, then `posts` holds a post whose title and
content are exactly the submitted form values (not swapped, not altered), stamped with the
store clock of the submission. -/
theorem submit_then_list_round_trip (db : Store) (env₁ env₂ : Env) (req req₂ : Request)
    (posts : List Post)
    (hsubmit : (handlePost db env₁ req).resp = [RespEvent.redirect "/" 302])
    (hlist : Call.executeTemplate "main" posts
      ∈ (handleMain (handlePost db env₁ req).db env₂ req₂).calls) :
    ∃ p ∈ posts, p.Title = req.PostFormValue "title" ∧
      p.Content = req.PostFormValue "content" ∧ p.Time = env₁.now := by
  by_cases hf : env₁.beginErr ≠ none ∨ env₁.execErr ≠ none ∨ env₁.commitErr ≠ none ∨
      db.posts = none
  · rw [(handlePost_failure db env₁ req hf).2.1] at hsubmit
    simp at hsubmit
  · simp only [not_or, not_not] at hf
    obtain ⟨hb, he, hc, hp⟩ := hf
    obtain ⟨rows, hrows⟩ := Option.ne_none_iff_exists'.mp hp
    rw [handlePost_success db env₁ req rows hb he hc hrows] at hlist
    obtain ⟨_, _, _, ⟨rows', hp', hsorted⟩, _⟩ := handleMain_rendered _ env₂ req₂ "main" posts hlist
    simp only [Option.some.injEq] at hp'
    subst hp'
    have hmem : Row.mk (some env₁.now) (some (req.PostFormValue "title"))
        (some (req.PostFormValue "content")) ∈ posts.map Post.toRow := by
      rw [hsorted]
      exact (orderByTsDesc_perm _).mem_iff.mpr (by simp)
    obtain ⟨p, hp1, hp2⟩ := List.mem_map.mp hmem
    refine ⟨p, hp1, ?_⟩
    simp only [Post.toRow, Row.mk.injEq, Option.some.injEq] at hp2
    exact ⟨hp2.2.1, hp2.2.2, hp2.1⟩

/-- The submitted text with HTML-special characters comes back unchanged. -/
theorem submit_then_list_round_trip_witness :
    ∃ p ∈ [Post.mk 5 "<b>Hello</b>" "World & \"more\""],
      p.Title = helloRequest.PostFormValue "title" ∧
      p.Content = helloRequest.PostFormValue "content" ∧ p.Time = (Env.quiet 5).now :=
  submit_then_list_round_trip emptyStore (Env.quiet 5) (Env.quiet 6) helloRequest indexRequest
    [Post.mk 5 "<b>Hello</b>" "World & \"more\""] (by decide) (by decide)

/-- Claim C6. The list in `handleMain` is all or nothing: when the query fails, a row scan
fails, or the cursor reports an error, the handler logs that error and writes nothing; in
particular a single row that cannot be scanned, or a cursor that breaks after any number of
rows, leaves the response empty. The template is executed only with one post per stored row,
and whatever is written to the response starts the page of that complete list. -/
theorem handleMain_all_or_nothing (db : Store) (env : Env) (req : Request) :
    (∀ err, QueryContext db env selectSQL = Except.error err →
      (handleMain db env req).resp = [] ∧
      (handleMain db env req).log
        = [{ format := "Error: Failed to query table %q: %v", args := ["posts", err] }]) ∧
    (∀ rows err, QueryContext db env selectSQL = Except.ok rows →
      scanLoop rows.items [] = Except.error err →
      (handleMain db env req).resp = [] ∧
      (handleMain db env req).log
        = [{ format := "Error: Failed to scan row: %v", args := [err] }]) ∧
    (∀ rows posts err, QueryContext db env selectSQL = Except.ok rows →
      scanLoop rows.items [] = Except.ok posts → rows.err = some err →
      (handleMain db env req).resp = [] ∧
      (handleMain db env req).log
        = [{ format := "Error: Failed to iterate rows: %v", args := [err] }]) ∧
    (env.queryErr ≠ none ∨ env.iterErr ≠ none ∨ db.posts = none ∨
        (∃ r ∈ db.rows, ∀ p, Scan r ≠ Except.ok p) →
      (handleMain db env req).resp = [] ∧ (handleMain db env req).log.length = 1 ∧
      ∀ name posts, Call.executeTemplate name posts ∉ (handleMain db env req).calls) ∧
    (∀ name posts, Call.executeTemplate name posts ∈ (handleMain db env req).calls →
      name = "main" ∧ posts.length = db.rows.length ∧ (posts.map Post.toRow).Perm db.rows) ∧
    ((handleMain db env req).resp ≠ [] →
      ∃ posts, Call.executeTemplate "main" posts ∈ (handleMain db env req).calls ∧
        ∀ ev ∈ (handleMain db env req).resp,
          ∃ body, ev = RespEvent.write body ∧ body.data <+: (execMain posts).data) := by
  have complete : ∀ name posts,
      Call.executeTemplate name posts ∈ (handleMain db env req).calls →
      name = "main" ∧ posts.length = db.rows.length ∧ (posts.map Post.toRow).Perm db.rows := by
    intro name posts h
    obtain ⟨hn, _, _, ⟨rows, hp, hrows⟩, _⟩ := handleMain_rendered db env req name posts h
    have hperm : (posts.map Post.toRow).Perm db.rows := by
      rw [hrows]
      simpa [Store.rows, hp] using orderByTsDesc_perm rows
    exact ⟨hn, by simpa using hperm.length_eq, hperm⟩
  refine ⟨?_, ?_, ?_, ?_, complete, ?_⟩
  · intro err hq
    simp [handleMain, hq]
  · intro rows err hq hs
    simp [handleMain, hq, hs]
  · intro rows posts err hq hs he
    simp [handleMain, hq, hs, he]
  · intro hfail
    have hno : ∀ name posts, Call.executeTemplate name posts ∉ (handleMain db env req).calls := by
      intro name posts h
      obtain ⟨_, hq, hi, ⟨rows, hp, hrows⟩, _⟩ := handleMain_rendered db env req name posts h
      rcases hfail with h1 | h1 | h1 | ⟨r, hr, hbad⟩
      · exact h1 hq
      · exact h1 hi
      · rw [hp] at h1; simp at h1
      · simp only [Store.rows, hp] at hr
        have : r ∈ posts.map Post.toRow := by
          rw [hrows]; exact (orderByTsDesc_perm rows).mem_iff.mpr hr
        obtain ⟨p, _, hp2⟩ := List.mem_map.mp this
        exact hbad p (by rw [← hp2]; rfl)
    refine ⟨?_, ?_, hno⟩
    all_goals
      cases hQ : QueryContext db env selectSQL with
      | error e => simp [handleMain, hQ]
      | ok rows =>
        cases hS : scanLoop rows.items [] with
        | error e => simp [handleMain, hQ, hS]
        | ok ps =>
          cases hE : rows.err with
          | some e => simp [handleMain, hQ, hS, hE]
          | none =>
            exfalso
            cases hT : ExecuteTemplate env "main" ps with
            | mk written oerr =>
              cases oerr with
              | some e => exact hno "main" ps (by simp [handleMain, hQ, hS, hE, hT])
              | none => exact hno "main" ps (by simp [handleMain, hQ, hS, hE, hT])
  · intro hne
    cases hQ : QueryContext db env selectSQL with
    | error e => simp [handleMain, hQ] at hne
    | ok rows =>
      cases hS : scanLoop rows.items [] with
      | error e => simp [handleMain, hQ, hS] at hne
      | ok ps =>
        cases hE : rows.err with
        | some e => simp [handleMain, hQ, hS, hE] at hne
        | none =>
          have hw : ∀ ev ∈ (ExecuteTemplate env "main" ps).1,
              ∃ body, ev = RespEvent.write body ∧ body.data <+: (execMain ps).data := by
            intro ev hev
            unfold ExecuteTemplate at hev
            simp only [if_true] at hev
            cases hW : env.writeErr with
            | none =>
              simp only [hW, List.mem_singleton] at hev
              exact ⟨_, hev, List.prefix_refl _⟩
            | some ne =>
              obtain ⟨n, e⟩ := ne
              simp only [hW] at hev
              by_cases hn : n = 0
              · simp [hn] at hev
              · simp only [hn, if_false, List.mem_singleton] at hev
                exact ⟨_, hev, List.take_prefix _ _⟩
          refine ⟨ps, ?_, ?_⟩
          · cases hT : ExecuteTemplate env "main" ps with
            | mk written oerr => cases oerr <;> simp [handleMain, hQ, hS, hE, hT]
          · cases hT : ExecuteTemplate env "main" ps with
            | mk written oerr =>
              rw [hT] at hw
              cases oerr <;> simpa [handleMain, hQ, hS, hE, hT] using hw

/-- A cursor that breaks after one of two rows, and a NULL title in the last row, both leave the
response empty. -/
theorem handleMain_all_or_nothing_witness :
    ((handleMain twoPosts cursorBreaks indexRequest).resp = [] ∧
      (handleMain twoPosts cursorBreaks indexRequest).log
        = [{ format := "Error: Failed to iterate rows: %v", args := ["connection lost"] }]) ∧
    ((handleMain { posts := some [Row.mk (some 2) (some "ok") (some "x"),
          Row.mk (some 1) none (some "y")] } (Env.quiet 5) indexRequest).resp = [] ∧
      (handleMain { posts := some [Row.mk (some 2) (some "ok") (some "x"),
          Row.mk (some 1) none (some "y")] } (Env.quiet 5) indexRequest).log.length = 1 ∧
      ∀ name posts, Call.executeTemplate name posts ∉
        (handleMain { posts := some [Row.mk (some 2) (some "ok") (some "x"),
          Row.mk (some 1) none (some "y")] } (Env.quiet 5) indexRequest).calls) :=
  ⟨(handleMain_all_or_nothing twoPosts cursorBreaks indexRequest).2.2.1
      { items := [Row.mk (some 2) (some "second") (some "b")], err := some "connection lost" }
      [Post.mk 2 "second" "b"] "connection lost" rfl rfl rfl,
    (handleMain_all_or_nothing _ (Env.quiet 5) indexRequest).2.2.2.1
      (Or.inr (Or.inr (Or.inr ⟨Row.mk (some 1) none (some "y"), by decide,
        fun p => by simp [Scan]⟩)))⟩

/-! ## Routing -/

/-- The multiplexer on the two routes of `main`. -/
theorem muxMatch_routes (path : String) :
    muxMatch routes path =
      if path = "/post" then some Handler.handlePost
      else if "/".data.isPrefixOf path.data = true then some Handler.handleMain
      else none := by
  by_cases h : path = "/post"
  · subst h
    decide
  · have h1 : (path == "/post") = false := by simpa using h
    by_cases h2 : path = "/"
    · subst h2
      decide
    · have h3 : (path == "/") = false := by simpa using h2
      have h4 : ¬ ("/post".data.getLast? = some '/') := by decide
      have h5 : "/".data.getLast? = some '/' := by decide
      simp only [muxMatch, routes, List.lookup, h1, h3, longestSubtree, List.foldl_cons,
        List.foldl_nil, h4, h5, false_and, if_false, true_and, beats, if_neg h]
      by_cases h6 : "/".data.isPrefixOf path.data = true
      · simp [h6]
      · simp [h6]

/-- Claim C7, counterexample. A GET request for `/post` is routed to `handlePost` and adds a
post with empty title and content to the store: the inserting handler is not limited to POST
requests. -/
theorem get_request_creates_post :
    ¬ (∀ (db : Store) (env : Env) (req : Request),
        (muxMatch routes req.Path = some Handler.handlePost ∨ (serve db env req).db ≠ db) →
        req.Method = "POST" ∧ req.Path = "/post") ∧
    muxMatch routes (Request.mk "GET" "/post" []).Path = some Handler.handlePost ∧
    (serve { posts := some [] } (Env.quiet 7) (Request.mk "GET" "/post" [])).db
      = { posts := some [Row.mk (some 7) (some "") (some "")] } ∧
    (serve { posts := some [] } (Env.quiet 7) (Request.mk "GET" "/post" [])).resp
      = [RespEvent.redirect "/" 302] := by
  refine ⟨?_, by decide, by decide, by decide⟩
  intro h
  have := h { posts := some [] } (Env.quiet 7) (Request.mk "GET" "/post" []) (Or.inl (by decide))
  exact absurd this.1 (by decide)

/-- Claim C7, amended. The multiplexer calls `handlePost` exactly when the request path is
`/post`, whatever the method; such a request is handled by `handlePost` and, when no step
fails, appends one post. A request for any other path leaves the store unchanged and
executes no statement in a transaction. -/
theorem post_created_only_by_request_to_post_path (db : Store) (env : Env) (req : Request) :
    (muxMatch routes req.Path = some Handler.handlePost ↔ req.Path = "/post") ∧
    (req.Path = "/post" → serve db env req = handlePost db env req) ∧
    (req.Path ≠ "/post" → (serve db env req).db = db ∧
      ∀ q a, Call.exec q a ∉ (serve db env req).calls) ∧
    (req.Path = "/post" → ∀ rows, db.posts = some rows → env.beginErr = none →
      env.execErr = none → env.commitErr = none →
      (serve db env req).db.posts = some (rows ++ [Row.mk (some env.now)
        (some (req.PostFormValue "title")) (some (req.PostFormValue "content"))])) := by
  have hserve : req.Path = "/post" → serve db env req = handlePost db env req := by
    intro h
    simp [serve, muxMatch_routes, h]
  refine ⟨?_, hserve, ?_, ?_⟩
  · rw [muxMatch_routes]
    by_cases h : req.Path = "/post"
    · simp [h]
    · by_cases h6 : "/".data.isPrefixOf req.Path.data = true <;> simp [h, h6]
  · intro h
    unfold serve
    rw [muxMatch_routes]
    by_cases h6 : "/".data.isPrefixOf req.Path.data = true
    · simp only [h, h6, if_false, if_true]
      refine ⟨handleMain_db db env req, ?_⟩
      intro q a hmem
      unfold handleMain at hmem
      cases hQ : QueryContext db env selectSQL with
      | error e => simp [hQ] at hmem
      | ok rows =>
        cases hS : scanLoop rows.items [] with
        | error e => simp [hQ, hS] at hmem
        | ok ps =>
          cases hE : rows.err with
          | some e => simp [hQ, hS, hE] at hmem
          | none =>
            cases hT : ExecuteTemplate env "main" ps with
            | mk written oerr => cases oerr <;> simp [hQ, hS, hE, hT] at hmem
    · simp [h, h6]
  · intro h rows hp hb he hc
    rw [hserve h, handlePost_success db env req rows hb he hc hp]

/-- A GET for `/post` appends a post; a POST for `/post/` does not touch the store. -/
theorem post_created_only_by_request_to_post_path_witness :
    (serve emptyStore (Env.quiet 7) getPostRequest).db.posts
      = some ([] ++ [Row.mk (some (Env.quiet 7).now)
          (some (getPostRequest.PostFormValue "title"))
          (some (getPostRequest.PostFormValue "content"))]) ∧
    (serve twoPosts (Env.quiet 7) (Request.mk "POST" "/post/" helloRequest.PostForm)).db
      = twoPosts :=
  ⟨(post_created_only_by_request_to_post_path emptyStore (Env.quiet 7) getPostRequest).2.2.2
      rfl [] rfl rfl rfl rfl,
    ((post_created_only_by_request_to_post_path twoPosts (Env.quiet 7)
      (Request.mk "POST" "/post/" helloRequest.PostForm)).2.2.1 (by decide)).1⟩

/-! ## Start-up and the whole program -/

/-- The two outcomes of `initDB`: exit 1 with the store untouched, or success with the rows kept. -/
theorem initDB_cases (db : Store) (env : Env) (path : String) :
    ((initDB db env path).exit = some 1 ∧ (initDB db env path).db = db ∧
      (initDB db env path).log.length = 1 ∧
      (env.openErr ≠ none ∨ env.beginErr ≠ none ∨ env.execErr ≠ none ∨ env.commitErr ≠ none)) ∨
    ((initDB db env path).exit = none ∧ (initDB db env path).log = [] ∧
      (initDB db env path).db = { posts := some db.rows } ∧
      env.openErr = none ∧ env.beginErr = none ∧ env.execErr = none ∧ env.commitErr = none) := by
  unfold initDB Begin
  cases ho : env.openErr with
  | some e => left; simp
  | none =>
    cases hb : env.beginErr with
    | some e => left; simp
    | none =>
      simp only [Exec_create]
      cases he : env.execErr with
      | some e => left; simp
      | none =>
        cases hc : env.commitErr with
        | some e => left; cases hp : db.posts <;> simp [Commit, hc]
        | none =>
          right
          obtain ⟨posts⟩ := db
          cases posts <;> simp [Commit, hc, Store.rows]

/-- The rows before a served request are an initial segment of the rows after it. -/
theorem serve_keeps_rows (db : Store) (env : Env) (req : Request) :
    db.rows <+: (serve db env req).db.rows := by
  unfold serve
  cases muxMatch routes req.Path with
  | none => exact List.prefix_refl _
  | some h =>
    cases h with
    | handlePost => exact handlePost_keeps_rows db env req
    | handleMain => simp only [handleMain_db]; exact List.prefix_refl _

/-- Serving requests touches neither the process-level calls, the deferred calls nor the exit
status, and keeps the rows. -/
theorem serveAll_fields (traffic : List (Request × Env)) (p : Proc) :
    (serveAll traffic p).events = p.events ∧ (serveAll traffic p).deferred = p.deferred ∧
    (serveAll traffic p).exit = p.exit ∧ p.db.rows <+: (serveAll traffic p).db.rows := by
  induction traffic generalizing p with
  | nil => exact ⟨rfl, rfl, rfl, List.prefix_refl _⟩
  | cons x rest ih =>
    obtain ⟨req, env⟩ := x
    simp only [serveAll]
    obtain ⟨h1, h2, h3, h4⟩ := ih (Proc.mk (serve p.db env req).db
      (p.log ++ (serve p.db env req).log) p.events p.deferred
      (p.replies ++ [(serve p.db env req).resp]) p.exit)
    exact ⟨h1, h2, h3, (serve_keeps_rows p.db env req).trans h4⟩

/-- The two outcomes of `main`: exit inside `initDB`, or exit after the server failed. -/
theorem main_cases (store : Store) (env : Env) (addr path : String)
    (traffic : List (Request × Env)) (serveErr : String) :
    ((initDB store env path).exit = some 1 ∧
      main store env addr path traffic serveErr =
        { db := (initDB store env path).db, log := (initDB store env path).log, events := [],
          deferred := [], replies := [], exit := some 1 }) ∨
    ((initDB store env path).exit = none ∧
      (main store env addr path traffic serveErr).exit = some 1 ∧
      (main store env addr path traffic serveErr).events =
        [ProcEvent.handleFunc "/post" Handler.handlePost,
         ProcEvent.handleFunc "/" Handler.handleMain, ProcEvent.listenAndServe addr] ∧
      (main store env addr path traffic serveErr).deferred = [ProcEvent.dbClose] ∧
      (initDB store env path).db.rows <+: (main store env addr path traffic serveErr).db.rows) := by
  rcases initDB_cases store env path with h | h
  · left
    obtain ⟨hx, _, _, _⟩ := h
    refine ⟨hx, ?_⟩
    simp [main, mainBody, runBody, hx]
  · right
    obtain ⟨hx, _, _, _⟩ := h
    refine ⟨hx, ?_⟩
    simp only [main, mainBody, runBody, hx, List.nil_append]
    obtain ⟨h1, h2, h3, h4⟩ := serveAll_fields traffic
      { db := (initDB store env path).db, log := (initDB store env path).log,
        events := [ProcEvent.handleFunc "/post" Handler.handlePost,
          ProcEvent.handleFunc "/" Handler.handleMain, ProcEvent.listenAndServe addr],
        deferred := [ProcEvent.dbClose], replies := [], exit := none }
    simp only [List.cons_append, List.nil_append, h3]
    exact ⟨trivial, h1, h2, h4⟩

/-- Claim C8. No operation changes or removes a stored post: the rows before `handlePost`,
before any served request and before a whole run of `main` are an initial segment of the rows
afterwards, `handleMain` leaves the store as it is, and `initDB` keeps the rows. On a store
whose table exists `initDB` changes nothing and, absent external failures, does not exit;
running `initDB` again after a successful run changes nothing. -/
theorem stored_posts_are_never_changed (db : Store) (env : Env) (req : Request)
    (addr path : String) (traffic : List (Request × Env)) (serveErr : String) :
    db.rows <+: (handlePost db env req).db.rows ∧
    (handleMain db env req).db = db ∧
    db.rows <+: (serve db env req).db.rows ∧
    (initDB db env path).db.rows = db.rows ∧
    (∀ rows, db.posts = some rows →
      (initDB db env path).db = db ∧
      (env.openErr = none → env.beginErr = none → env.execErr = none →
        env.commitErr = none →
        (initDB db env path).exit = none ∧ (initDB db env path).log = [])) ∧
    (∀ env₂, (initDB db env path).exit = none →
      (initDB (initDB db env path).db env₂ path).db = (initDB db env path).db) ∧
    db.rows <+: (main db env addr path traffic serveErr).db.rows := by
  have hinit : ∀ (d : Store) (e : Env), (initDB d e path).db.rows = d.rows := by
    intro d e
    rcases initDB_cases d e path with h | h
    · rw [h.2.1]
    · rw [h.2.2.1]; rfl
  have hexist : ∀ (d : Store) (e : Env) rows, d.posts = some rows → (initDB d e path).db = d := by
    intro d e rows hp
    rcases initDB_cases d e path with h | h
    · exact h.2.1
    · rw [h.2.2.1]
      obtain ⟨posts⟩ := d
      simp only at hp
      simp [Store.rows, hp]
  refine ⟨handlePost_keeps_rows db env req, handleMain_db db env req,
    serve_keeps_rows db env req, hinit db env, ?_, ?_, ?_⟩
  · intro rows hp
    refine ⟨hexist db env rows hp, ?_⟩
    intro ho hb he hc
    rcases initDB_cases db env path with h | h
    · obtain ⟨_, _, _, hbad⟩ := h
      simp [ho, hb, he, hc] at hbad
    · exact ⟨h.1, h.2.1⟩
  · intro env₂ hx
    rcases initDB_cases db env path with h | h
    · rw [h.1] at hx; simp at hx
    · exact hexist _ env₂ db.rows (by rw [h.2.2.1])
  · rcases main_cases db env addr path traffic serveErr with h | h
    · rw [h.2]
      simp only [hinit db env]
      exact List.prefix_refl _
    · have := h.2.2.2.2
      rw [hinit db env] at this
      exact this

/-- Running `initDB` on a store with two posts changes nothing and does not exit; a submission
keeps both posts. -/
theorem stored_posts_are_never_changed_witness :
    ((initDB twoPosts (Env.quiet 9) "db.ql").db = twoPosts ∧
      (initDB twoPosts (Env.quiet 9) "db.ql").exit = none ∧
      (initDB twoPosts (Env.quiet 9) "db.ql").log = []) ∧
    twoPosts.rows <+: (handlePost twoPosts (Env.quiet 9) helloRequest).db.rows :=
  ⟨⟨((stored_posts_are_never_changed twoPosts (Env.quiet 9) helloRequest ":8080" "db.ql" []
        "closed").2.2.2.2.1 _ rfl).1,
      ((stored_posts_are_never_changed twoPosts (Env.quiet 9) helloRequest ":8080" "db.ql" []
        "closed").2.2.2.2.1 _ rfl).2 rfl rfl rfl rfl⟩,
    (stored_posts_are_never_changed twoPosts (Env.quiet 9) helloRequest ":8080" "db.ql" []
      "closed").1⟩

/-- Claim C10, evaluated on the code. In every run `main` ends through `os.Exit(1)`; the
call `DB.Close` is never performed, and when `initDB` succeeded it is still waiting among the
deferred calls at exit. The second part runs `main` on a fresh store with the listen
address already in use. -/
theorem main_exits_without_closing_store :
    (∀ (store : Store) (env : Env) (addr path : String) (traffic : List (Request × Env))
        (serveErr : String),
      (main store env addr path traffic serveErr).exit = some 1 ∧
      ProcEvent.dbClose ∉ (main store env addr path traffic serveErr).events ∧
      ((initDB store env path).exit = none →
        ProcEvent.listenAndServe addr ∈ (main store env addr path traffic serveErr).events ∧
        (main store env addr path traffic serveErr).deferred = [ProcEvent.dbClose])) ∧
    main { posts := none } (Env.quiet 0) ":8080" "db.ql" []
        "listen tcp :8080: bind: address already in use"
      = { db := emptyStore,
          log := [{ format := "Error: Server failed: %v\n",
                    args := ["listen tcp :8080: bind: address already in use"] }],
          events := [ProcEvent.handleFunc "/post" Handler.handlePost,
            ProcEvent.handleFunc "/" Handler.handleMain, ProcEvent.listenAndServe ":8080"],
          deferred := [ProcEvent.dbClose], replies := [], exit := some 1 } := by
  refine ⟨?_, by decide⟩
  intro store env addr path traffic serveErr
  rcases main_cases store env addr path traffic serveErr with h | h
  · obtain ⟨hx, hm⟩ := h
    rw [hm]
    refine ⟨rfl, by simp, ?_⟩
    intro h'
    rw [hx] at h'
    simp at h'
  · obtain ⟨_, h1, h2, h3, _⟩ := h
    refine ⟨h1, by simp [h2], fun _ => ⟨by simp [h2], h3⟩⟩

end Poultry
